import Mathlib

/-! TinyBehaviorTree: a shallow embedding of `tinybehaviortree.h` and its examples.

Conventions of the embedding.

* `W` is the mutable state of the program outside the tree: the objects that
  reference payloads (`Agent&`, `Door&`, ...) refer to, and `std::cout`.
  A tick is a state transformer on `W`.
* `P` is the payload type list `Payload...` of a node, as one (tuple) type.
  Payload values are what is passed by value at the call: for a reference
  payload that is the reference itself, not the object it refers to.
* Heap objects have an address (`Addr`).  `BehaviorNodeBase::parent` holds the
  address of the parent, or `none` for `nullptr`.
* A tick returns `none` where the C++ dereferences a null `unique_ptr`
  (undefined behaviour); otherwise the `BehaviorResult`, the new state and the
  addresses of the nodes whose `tick` was entered, in call order.  The list of
  addresses is instrumentation: it is never read by the code.
* No `tick` body in the header assigns to a member, so nodes are immutable
  values during a tick.  `BehaviorNode.tickObject` is the tick with the object
  it leaves, and `tickObject_eq` shows that the object is left as it was.
-/

namespace TBT

/-- The `enum class BehaviorResult` of the header. -/
inductive BehaviorResult where
  | IDLE
  | RUNNING
  | SUCCESS
  | FAILURE
  deriving DecidableEq, Repr

/-- Address of a heap-allocated node. -/
abbrev Addr := Nat

/-- What one call of `tick` yields: the returned `BehaviorResult`, the state it
leaves, and the addresses of the nodes whose `tick` ran, in call order. -/
structure Ticked (W : Type) where
  result : BehaviorResult
  world : W
  visited : List Addr
  deriving DecidableEq, Repr

/-- Record that the `tick` of the node at `self` was entered before the ticks in `t`. -/
def Ticked.enter {W : Type} (self : Addr) (t : Ticked W) : Ticked W :=
  { t with visited := self :: t.visited }

/-- Record that the ticks `earlier` happened before the ticks in `t`. -/
def Ticked.after {W : Type} (earlier : List Addr) (t : Ticked W) : Ticked W :=
  { t with visited := earlier ++ t.visited }

mutual
/-- The objects behind a `BehaviorNode<Payload...>*`: every node has its own
address `self` and the `parent` field of `BehaviorNodeBase`.

* `leaf`: a user class overriding `tick`;
* `sequence`: `SequenceNode<Payload...>` with its `children` vector;
* `fallback`: `FallbackNode<Payload...>`, used by `fallback_node.cpp` and not
  defined in the header: modelled from the spec, see `NodeVec.tickFallback`;
* `peel`: an instance of `TBT_PEEL_NODE_MACRO`, with the expression `func`
  and the `child` pointer.  `func` may read the state (through a reference in
  the payload); it is an expression without side effects. -/
inductive BehaviorNode (W : Type) : Type → Type 1 where
  | leaf {P : Type} (self : Addr) (parent : Option Addr)
      (tick : P → W → BehaviorResult × W) : BehaviorNode W P
  | sequence {P : Type} (self : Addr) (parent : Option Addr)
      (children : NodeVec W P) : BehaviorNode W P
  | fallback {P : Type} (self : Addr) (parent : Option Addr)
      (children : NodeVec W P) : BehaviorNode W P
  | peel {P Q : Type} (self : Addr) (parent : Option Addr)
      (func : P → W → Q) (child : UniquePtr W Q) : BehaviorNode W P
/-- A `std::vector<std::unique_ptr<BehaviorNode<Payload...>>>` whose elements are
all non-null (`addChild` is the only way in, and it dereferences its argument). -/
inductive NodeVec (W : Type) : Type → Type 1 where
  | nil {P : Type} : NodeVec W P
  | cons {P : Type} (head : BehaviorNode W P) (tail : NodeVec W P) : NodeVec W P
/-- A `std::unique_ptr<BehaviorNode<Payload...>>`: null, or owning a node. -/
inductive UniquePtr (W : Type) : Type → Type 1 where
  | null {P : Type} : UniquePtr W P
  | owns {P : Type} (node : BehaviorNode W P) : UniquePtr W P
end

/-- The elements of a children vector, first inserted first. -/
def NodeVec.toList {W P : Type} : NodeVec W P → List (BehaviorNode W P)
  | .nil => []
  | .cons head tail => head :: tail.toList

/-- The children vector holding the given nodes in the given order. -/
def NodeVec.ofList {W P : Type} : List (BehaviorNode W P) → NodeVec W P
  | [] => .nil
  | head :: tail => .cons head (NodeVec.ofList tail)

/-- `std::vector::push_back`. -/
def NodeVec.push_back {W P : Type} : NodeVec W P → BehaviorNode W P → NodeVec W P
  | .nil, node => .cons node .nil
  | .cons head tail, node => .cons head (tail.push_back node)

/-- Address of a node. -/
def BehaviorNode.self {W P : Type} : BehaviorNode W P → Addr
  | .leaf self _ _ => self
  | .sequence self _ _ => self
  | .fallback self _ _ => self
  | .peel self _ _ _ => self

/-- The field `BehaviorNodeBase::parent`. -/
def BehaviorNode.parent {W P : Type} : BehaviorNode W P → Option Addr
  | .leaf _ parent _ => parent
  | .sequence _ parent _ => parent
  | .fallback _ parent _ => parent
  | .peel _ parent _ _ => parent

/-- `BehaviorNodeBase::setParent(child, parent)`: `child->parent = parent`. -/
def BehaviorNode.setParent {W P : Type} (child : BehaviorNode W P) (parent : Option Addr) :
    BehaviorNode W P :=
  match child with
  | .leaf self _ tick => .leaf self parent tick
  | .sequence self _ children => .sequence self parent children
  | .fallback self _ children => .fallback self parent children
  | .peel self _ func sub => .peel self parent func sub

mutual
/-- The virtual call `node->tick(payload...)`.

* leaf: the user override;
* `SequenceNode::tick`: the loop over `children`;
* `FallbackNode::tick`: see `NodeVec.tickFallback`;
* peel node: `PeelNodeBase::tick` builds the tuple and calls `tickTuple`, which
  evaluates `peeled = peel(payload)` (the expression `func`) and then
  `callFunc`, that is `child->tick(std::get<S>(peeled)...)` with `S` running
  over all indices of the sub-payload. -/
def BehaviorNode.tick {W : Type} :
    {P : Type} → BehaviorNode W P → P → W → Option (Ticked W)
  | _, .leaf self _ tick, payload, w =>
      let r := tick payload w
      some ⟨r.1, r.2, [self]⟩
  | _, .sequence self _ children, payload, w =>
      (children.tickSequence payload w).map (Ticked.enter self)
  | _, .fallback self _ children, payload, w =>
      (children.tickFallback payload w).map (Ticked.enter self)
  | _, .peel self _ func child, payload, w =>
      let peeled := func payload w
      (child.tick peeled w).map (Ticked.enter self)
/-- The body of `SequenceNode::tick` from the iterator position on:
`for (it ...) { result = node->tick(payload...); if (result == FAILURE) return FAILURE; }
return SUCCESS;`. -/
def NodeVec.tickSequence {W : Type} :
    {P : Type} → NodeVec W P → P → W → Option (Ticked W)
  | _, .nil, _, w => some ⟨.SUCCESS, w, []⟩
  | _, .cons node rest, payload, w =>
      match node.tick payload w with
      | none => none
      | some t =>
        if t.result = .FAILURE then some ⟨.FAILURE, t.world, t.visited⟩
        else (rest.tickSequence payload t.world).map (Ticked.after t.visited)
/-- Modelled from the spec: `FallbackNode::tick`, which `fallback_node.cpp` uses
and the header does not define.  Spec 4.3: iterate children in insertion order;
call `tick(payload)` on each; if a child returns `Success`, stop immediately and
return `Success`; if all children are exhausted without a `Success`, return
`Failure`. -/
def NodeVec.tickFallback {W : Type} :
    {P : Type} → NodeVec W P → P → W → Option (Ticked W)
  | _, .nil, _, w => some ⟨.FAILURE, w, []⟩
  | _, .cons node rest, payload, w =>
      match node.tick payload w with
      | none => none
      | some t =>
        if t.result = .SUCCESS then some ⟨.SUCCESS, t.world, t.visited⟩
        else (rest.tickFallback payload t.world).map (Ticked.after t.visited)
/-- The call `child->tick(...)` through a `unique_ptr`; a null pointer has no
object to call. -/
def UniquePtr.tick {W : Type} :
    {P : Type} → UniquePtr W P → P → W → Option (Ticked W)
  | _, .null, _, _ => none
  | _, .owns node, payload, w => node.tick payload w
end

/-! ## The classes of the header as objects under construction -/

/-- A `SequenceNode<Payload...>` object. -/
structure SequenceNode (W P : Type) where
  self : Addr
  parent : Option Addr
  children : NodeVec W P

/-- `std::make_unique<SequenceNode<Payload...>>()` placing the object at `self`. -/
def SequenceNode.new {W P : Type} (self : Addr) : SequenceNode W P :=
  ⟨self, none, .nil⟩

/-- `SequenceNode::addChild` with a non-null argument:
`setParent(&*node, this); children.push_back(std::move(node));`. -/
def SequenceNode.addChild {W P : Type} (s : SequenceNode W P) (node : BehaviorNode W P) :
    SequenceNode W P :=
  { s with children := s.children.push_back (node.setParent (some s.self)) }

/-- The object seen through a `BehaviorNode<Payload...>*`. -/
def SequenceNode.toNode {W P : Type} (s : SequenceNode W P) : BehaviorNode W P :=
  .sequence s.self s.parent s.children

/-- `SequenceNode::tick`. -/
def SequenceNode.tick {W P : Type} (s : SequenceNode W P) (payload : P) (w : W) :
    Option (Ticked W) :=
  s.toNode.tick payload w

/-- Modelled from the spec: the class `FallbackNode<Payload...>`, absent from the
header; a composite owning an ordered list of children of the same payload
type (spec 3), built by an ordered `addChild` (spec 6). -/
structure FallbackNode (W P : Type) where
  self : Addr
  parent : Option Addr
  children : NodeVec W P

/-- Modelled from the spec: `std::make_unique<FallbackNode<Payload...>>()`, for the
absent class `FallbackNode`, placing the object at `self`. -/
def FallbackNode.new {W P : Type} (self : Addr) : FallbackNode W P :=
  ⟨self, none, .nil⟩

/-- Modelled from the spec: `FallbackNode::addChild`, absent from the header; as
`SequenceNode::addChild`, it appends the child and sets its parent. -/
def FallbackNode.addChild {W P : Type} (s : FallbackNode W P) (node : BehaviorNode W P) :
    FallbackNode W P :=
  { s with children := s.children.push_back (node.setParent (some s.self)) }

/-- The object seen through a `BehaviorNode<Payload...>*`. -/
def FallbackNode.toNode {W P : Type} (s : FallbackNode W P) : BehaviorNode W P :=
  .fallback s.self s.parent s.children

/-- Modelled from the spec: `FallbackNode::tick`, see `NodeVec.tickFallback`. -/
def FallbackNode.tick {W P : Type} (s : FallbackNode W P) (payload : P) (w : W) :
    Option (Ticked W) :=
  s.toNode.tick payload w

/-- An object of a class made by `TBT_PEEL_NODE_MACRO(name, base, sub, func)`:
`P` is `base`, `Q` is `sub`. -/
structure PeelNode (W P Q : Type) where
  self : Addr
  parent : Option Addr
  func : P → W → Q
  child : UniquePtr W Q

/-- `std::make_unique<name>()` for a peel class with expression `func`. -/
def PeelNode.new {W P Q : Type} (self : Addr) (func : P → W → Q) : PeelNode W P Q :=
  ⟨self, none, func, .null⟩

/-- The method `setChild` of a peel class with a non-null argument:
`SuperNode::setParent(&*node, this); child = std::move(node);`. -/
def PeelNode.setChild {W P Q : Type} (n : PeelNode W P Q) (node : BehaviorNode W Q) :
    PeelNode W P Q :=
  { n with child := .owns (node.setParent (some n.self)) }

/-- The method `peel` of a peel class: `return func;`. -/
def PeelNode.peel {W P Q : Type} (n : PeelNode W P Q) (payload : P) (w : W) : Q :=
  n.func payload w

/-- The object seen through a `BehaviorNode<base>*`. -/
def PeelNode.toNode {W P Q : Type} (n : PeelNode W P Q) : BehaviorNode W P :=
  .peel n.self n.parent n.func n.child

/-- `PeelNodeBase::tick` of a peel object. -/
def PeelNode.tick {W P Q : Type} (n : PeelNode W P Q) (payload : P) (w : W) :
    Option (Ticked W) :=
  n.toNode.tick payload w

/-- A `BehaviorTree<Payload...>` object. -/
structure BehaviorTree (W P : Type) where
  rootNode : UniquePtr W P

/-- The constructor `BehaviorTree(){}`: `rootNode` is default-constructed, null. -/
def BehaviorTree.new {W P : Type} : BehaviorTree W P :=
  ⟨.null⟩

/-- `BehaviorTree::setRoot`: `rootNode = std::move(node);`. -/
def BehaviorTree.setRoot {W P : Type} (_t : BehaviorTree W P) (node : UniquePtr W P) :
    BehaviorTree W P :=
  ⟨node⟩

/-- What `tickRoot` leaves behind (it returns `void`): the tree object, the
state, and the addresses of the nodes ticked. -/
structure RootTicked (W P : Type) where
  tree : BehaviorTree W P
  world : W
  visited : List Addr

/-- `BehaviorTree::tickRoot`: `if(rootNode){ rootNode->tick(payload...); }`; the
result of the root is dropped. -/
def BehaviorTree.tickRoot {W P : Type} (t : BehaviorTree W P) (payload : P) (w : W) :
    Option (RootTicked W P) :=
  match t.rootNode with
  | .null => some ⟨t, w, []⟩
  | .owns root => (root.tick payload w).map fun r => ⟨t, r.world, r.visited⟩

/-! ## Reference runs used to state what a composite does -/

/-- The record of ticking a list of nodes one after the other: the result of
each, the final state, and the nodes ticked, in call order. -/
structure ChildRun (W : Type) where
  results : List BehaviorResult
  world : W
  visited : List Addr
  deriving DecidableEq, Repr

/-- Tick every node of `nodes` exactly once, in list order, with the same payload,
each in the state its predecessor left.  This is the instrumented reference run
against which the composites are compared; it is not code of the header. -/
def tickEach {W P : Type} : List (BehaviorNode W P) → P → W → Option (ChildRun W)
  | [], _, w => some ⟨[], w, []⟩
  | node :: rest, payload, w =>
      match node.tick payload w with
      | none => none
      | some t =>
        (tickEach rest payload t.world).map fun r =>
          ⟨t.result :: r.results, r.world, t.visited ++ r.visited⟩

/-- A finite chain of peel objects stacked on each other, outermost first: the
first projects `P` to some `Q`, the next `Q` to some `R`, and so on down to the
payload `Z` of the node below the chain. -/
inductive PeelChain (W : Type) : Type → Type → Type 1 where
  | done {P : Type} : PeelChain W P P
  | link {P Q Z : Type} (self : Addr) (parent : Option Addr) (func : P → W → Q)
      (rest : PeelChain W Q Z) : PeelChain W P Z

/-- The chain of peel nodes with `bottom` as the child of the innermost one. -/
def PeelChain.wrap {W : Type} :
    {P Z : Type} → PeelChain W P Z → BehaviorNode W Z → BehaviorNode W P
  | _, _, .done, bottom => bottom
  | _, _, .link self parent func rest, bottom =>
      .peel self parent func (.owns (rest.wrap bottom))

/-- The composition of the projections of a chain, outermost applied first. -/
def PeelChain.project {W : Type} : {P Z : Type} → PeelChain W P Z → P → W → Z
  | _, _, .done, payload, _ => payload
  | _, _, .link _ _ func rest, payload, w => rest.project (func payload w) w

/-- The addresses of the peel nodes of a chain, outermost first. -/
def PeelChain.addrs {W : Type} : {P Z : Type} → PeelChain W P Z → List Addr
  | _, _, .done => []
  | _, _, .link self _ _ rest => self :: rest.addrs

/-- The result and the state of a tick, without the instrumentation. -/
def Ticked.outcome {W : Type} (t : Ticked W) : BehaviorResult × W :=
  (t.result, t.world)

/-! ## Shape and size of a tree -/

mutual
/-- Whether a tree is built from `SequenceNode` and peel nodes over leaves, every
peel node with its child attached. -/
def BehaviorNode.isSequencePeelTree {W : Type} : {P : Type} → BehaviorNode W P → Bool
  | _, .leaf _ _ _ => true
  | _, .sequence _ _ children => children.isSequencePeelTree
  | _, .fallback _ _ _ => false
  | _, .peel _ _ _ child => child.isSequencePeelTree
/-- Whether every child is such a tree. -/
def NodeVec.isSequencePeelTree {W : Type} : {P : Type} → NodeVec W P → Bool
  | _, .nil => true
  | _, .cons head tail => head.isSequencePeelTree && tail.isSequencePeelTree
/-- Whether the pointer owns such a tree. -/
def UniquePtr.isSequencePeelTree {W : Type} : {P : Type} → UniquePtr W P → Bool
  | _, .null => false
  | _, .owns node => node.isSequencePeelTree
end

mutual
/-- The addresses of all nodes of a tree, parent before children, children in
insertion order. -/
def BehaviorNode.addrs {W : Type} : {P : Type} → BehaviorNode W P → List Addr
  | _, .leaf self _ _ => [self]
  | _, .sequence self _ children => self :: children.addrs
  | _, .fallback self _ children => self :: children.addrs
  | _, .peel self _ _ child => self :: child.addrs
/-- The addresses of all nodes of the trees of a children vector. -/
def NodeVec.addrs {W : Type} : {P : Type} → NodeVec W P → List Addr
  | _, .nil => []
  | _, .cons head tail => head.addrs ++ tail.addrs
/-- The addresses of all nodes of the tree a pointer owns. -/
def UniquePtr.addrs {W : Type} : {P : Type} → UniquePtr W P → List Addr
  | _, .null => []
  | _, .owns node => node.addrs
end

mutual
/-- The addresses of the leaves of a tree, in the order of `BehaviorNode.addrs`. -/
def BehaviorNode.leafAddrs {W : Type} : {P : Type} → BehaviorNode W P → List Addr
  | _, .leaf self _ _ => [self]
  | _, .sequence _ _ children => children.leafAddrs
  | _, .fallback _ _ children => children.leafAddrs
  | _, .peel _ _ _ child => child.leafAddrs
/-- The addresses of the leaves of the trees of a children vector. -/
def NodeVec.leafAddrs {W : Type} : {P : Type} → NodeVec W P → List Addr
  | _, .nil => []
  | _, .cons head tail => head.leafAddrs ++ tail.leafAddrs
/-- The addresses of the leaves of the tree a pointer owns. -/
def UniquePtr.leafAddrs {W : Type} : {P : Type} → UniquePtr W P → List Addr
  | _, .null => []
  | _, .owns node => node.leafAddrs
end

/-- The number of ticks of leaves of `n` among the ticks `visited`. -/
def BehaviorNode.leafTicks {W P : Type} (n : BehaviorNode W P) (visited : List Addr) : Nat :=
  (visited.filter fun a => decide (a ∈ n.leafAddrs)).length

/-! ## Repeated ticks -/

/-- Successive calls `tree.tickRoot(p)` for the payloads of the list, each on the
tree and in the state the previous call left. -/
def BehaviorTree.tickRoots {W P : Type} (t : BehaviorTree W P) :
    List P → W → Option (RootTicked W P)
  | [], w => some ⟨t, w, []⟩
  | payload :: rest, w =>
      match t.tickRoot payload w with
      | none => none
      | some r =>
        (BehaviorTree.tickRoots r.tree rest r.world).map fun r2 =>
          ⟨r2.tree, r2.world, r.visited ++ r2.visited⟩

/-- Successive direct calls `node.tick(p)` for the payloads of the list, each in
the state the previous call left; the results are dropped. -/
def BehaviorNode.ticks {W P : Type} (node : BehaviorNode W P) :
    List P → W → Option (W × List Addr)
  | [], w => some (w, [])
  | payload :: rest, w =>
      match node.tick payload w with
      | none => none
      | some t =>
        (node.ticks rest t.world).map fun r => (r.1, t.visited ++ r.2)

/-! ## How a tick can end -/

/-- The ways a call of `tick` can end, in the words of spec 7: it returns a
`BehaviorResult`; or a violated precondition is detected and reported loudly
(an assertion or a panic); or the behaviour is undefined. -/
inductive Ending where
  | returned (result : BehaviorResult)
  | loud
  | undefined
  deriving DecidableEq, Repr

/-- How `node->tick(payload...)` ends.  The header has no assertion, `throw` or
`abort`, so no tick of it ends loudly: it returns, or it went through a null
`unique_ptr`. -/
def BehaviorNode.ending {W P : Type} (node : BehaviorNode W P) (payload : P) (w : W) : Ending :=
  match node.tick payload w with
  | some t => .returned t.result
  | none => .undefined

/-! ## Ticks as methods of mutable objects

`tick` is a non-const virtual method: a call may leave the object it is called
on, and the objects it owns, in another state.  The functions below return,
next to what `tick` yields, the object as the call leaves it: every member with
the value the body of the method leaves in it.  A leaf is a user class whose
state, if any, is part of `W`. -/

mutual
/-- The virtual call `node->tick(payload...)`, with the object after the call.

* leaf: the user override; the members `self` address, `parent` and the code
  are as before;
* `SequenceNode::tick`: writes no member; `children` holds the children as their
  own ticks left them;
* `FallbackNode::tick`: see `NodeVec.tickFallbackObject`;
* peel node: `tick`, `tickTuple`, `peel` and `callFunc` write no member; `child`
  owns the child as its own tick left it. -/
def BehaviorNode.tickObject {W : Type} :
    {P : Type} → BehaviorNode W P → P → W → Option (Ticked W × BehaviorNode W P)
  | _, .leaf self parent tick, payload, w =>
      let r := tick payload w
      some (⟨r.1, r.2, [self]⟩, .leaf self parent tick)
  | _, .sequence self parent children, payload, w =>
      match children.tickSequenceObject payload w with
      | none => none
      | some (t, children2) => some (t.enter self, .sequence self parent children2)
  | _, .fallback self parent children, payload, w =>
      match children.tickFallbackObject payload w with
      | none => none
      | some (t, children2) => some (t.enter self, .fallback self parent children2)
  | _, .peel self parent func child, payload, w =>
      let peeled := func payload w
      match child.tickObject peeled w with
      | none => none
      | some (t, child2) => some (t.enter self, .peel self parent func child2)
/-- The loop of `SequenceNode::tick` from the iterator position on, with the
elements of the vector from that position on as the loop leaves them: the
element ticked is as its tick left it (`auto& node = *it; node->tick(...)`),
the elements after an early `return` are untouched, none is erased or moved. -/
def NodeVec.tickSequenceObject {W : Type} :
    {P : Type} → NodeVec W P → P → W → Option (Ticked W × NodeVec W P)
  | _, .nil, _, w => some (⟨.SUCCESS, w, []⟩, .nil)
  | _, .cons node rest, payload, w =>
      match node.tickObject payload w with
      | none => none
      | some (t, node2) =>
        if t.result = .FAILURE then some (⟨.FAILURE, t.world, t.visited⟩, .cons node2 rest)
        else
          match rest.tickSequenceObject payload t.world with
          | none => none
          | some (t2, rest2) => some (t2.after t.visited, .cons node2 rest2)
/-- Modelled from the spec: the loop of `FallbackNode::tick`, absent from the
header, with the elements of the vector as the loop leaves them; spec 4.3 as in
`NodeVec.tickFallback`, and spec 3: the children list is append-only, so the
loop erases and moves no element. -/
def NodeVec.tickFallbackObject {W : Type} :
    {P : Type} → NodeVec W P → P → W → Option (Ticked W × NodeVec W P)
  | _, .nil, _, w => some (⟨.FAILURE, w, []⟩, .nil)
  | _, .cons node rest, payload, w =>
      match node.tickObject payload w with
      | none => none
      | some (t, node2) =>
        if t.result = .SUCCESS then some (⟨.SUCCESS, t.world, t.visited⟩, .cons node2 rest)
        else
          match rest.tickFallbackObject payload t.world with
          | none => none
          | some (t2, rest2) => some (t2.after t.visited, .cons node2 rest2)
/-- The call `child->tick(...)` through a `unique_ptr`, with the pointer after the
call: it still owns the object, as the tick left it. -/
def UniquePtr.tickObject {W : Type} :
    {P : Type} → UniquePtr W P → P → W → Option (Ticked W × UniquePtr W P)
  | _, .null, _, _ => none
  | _, .owns node, payload, w =>
      match node.tickObject payload w with
      | none => none
      | some (t, node2) => some (t, .owns node2)
end

/-- `BehaviorTree::tickRoot`, with the tree after the call: `rootNode` is not
assigned, and owns the root as its tick left it. -/
def BehaviorTree.tickRootObject {W P : Type} (t : BehaviorTree W P) (payload : P) (w : W) :
    Option (RootTicked W P) :=
  match t.rootNode with
  | .null => some ⟨t, w, []⟩
  | .owns root =>
      match root.tickObject payload w with
      | none => none
      | some (r, root2) => some ⟨⟨.owns root2⟩, r.world, r.visited⟩

/-- The operations of the class `SequenceNode` on an object that exists: its
public methods `addChild` (with a non-null argument) and `tick`.  The member
`children` is protected and the header has no other code that reaches it. -/
inductive SequenceNode.Op (W P : Type) : Type 1 where
  | addChild (node : BehaviorNode W P)
  | tick (payload : P) (w : W)

/-- The `SequenceNode` object after one operation; `none` when the operation has
no defined outcome. -/
def SequenceNode.Op.apply {W P : Type} (op : SequenceNode.Op W P) (s : SequenceNode W P) :
    Option (SequenceNode W P) :=
  match op with
  | .addChild node => some (s.addChild node)
  | .tick payload w =>
      match s.children.tickSequenceObject payload w with
      | none => none
      | some (_, children2) => some ⟨s.self, s.parent, children2⟩

/-- The `SequenceNode` object after a list of operations, first to last. -/
def SequenceNode.applyAll {W P : Type} :
    List (SequenceNode.Op W P) → SequenceNode W P → Option (SequenceNode W P)
  | [], s => some s
  | op :: ops, s =>
      match op.apply s with
      | none => none
      | some s2 => SequenceNode.applyAll ops s2

end TBT

/-! ## `examples/fallback_node.cpp` -/

namespace FallbackExample

open TBT

/-- The `struct Door`. -/
structure Door where
  «open» : Bool := false
  locked : Bool := false
  deriving DecidableEq, Repr

/-- The `struct Agent`. -/
structure Agent where
  hasKey : Bool := false
  deriving DecidableEq, Repr

/-- The state the example runs in: the locals `agent` and `door` of `tryScenario`
and the characters written to `std::cout`. -/
structure World where
  agent : Agent
  door : Door
  cout : String
  deriving DecidableEq, Repr

/-- A reference `T&` to an object living in `World`. -/
structure Ref (T : Type) where
  get : World → T
  set : T → World → World

/-- The payload type list `Agent&, Door&`. -/
abbrev Payload := Ref Agent × Ref Door

/-- `std::cout << s`. -/
def World.print (w : World) (s : String) : World :=
  { w with cout := w.cout ++ s }

/-- `IsDoorOpen::tick`. -/
def IsDoorOpen.tick (door : Ref Door) (w : World) : BehaviorResult × World :=
  let w1 := w.print ("The door is " ++ (if (door.get w).«open» then "open" else "closed") ++ ".\n")
  (if (door.get w1).«open» then .SUCCESS else .FAILURE, w1)

/-- `OpenDoor::tick`. -/
def OpenDoor.tick (door : Ref Door) (w : World) : BehaviorResult × World :=
  if !(door.get w).locked then
    let w1 := door.set { door.get w with «open» := true } w
    (.SUCCESS, w1.print "Door opened!\n")
  else
    (.FAILURE, w.print "Door was unable to open because it\x27s locked!\n")

/-- `HaveKey::tick`. -/
def HaveKey.tick (agent : Ref Agent) (w : World) : BehaviorResult × World :=
  (if (agent.get w).hasKey then .SUCCESS else .FAILURE, w)

/-- `UnlockDoor::tick`. -/
def UnlockDoor.tick (door : Ref Door) (w : World) : BehaviorResult × World :=
  let w1 := door.set { door.get w with locked := false } w
  (.SUCCESS, w1.print "Door unlocked!\n")

/-- `SmashDoor::tick`. -/
def SmashDoor.tick (_door : Ref Door) (w : World) : BehaviorResult × World :=
  (.FAILURE, w.print "You smashed the door, but it didn\x27t move a bit.\n")

/-- `EnterRoom::tick`. -/
def EnterRoom.tick (_payload : Payload) (w : World) : BehaviorResult × World :=
  (.SUCCESS, w.print "You entered the room. Congrats!\n")

/-- `std::make_unique<IsDoorOpen>()`. -/
def IsDoorOpen.new (self : Addr) : BehaviorNode World (Ref Door) :=
  .leaf self none IsDoorOpen.tick

/-- `std::make_unique<OpenDoor>()`. -/
def OpenDoor.new (self : Addr) : BehaviorNode World (Ref Door) :=
  .leaf self none OpenDoor.tick

/-- `std::make_unique<HaveKey>()`. -/
def HaveKey.new (self : Addr) : BehaviorNode World (Ref Agent) :=
  .leaf self none HaveKey.tick

/-- `std::make_unique<UnlockDoor>()`. -/
def UnlockDoor.new (self : Addr) : BehaviorNode World (Ref Door) :=
  .leaf self none UnlockDoor.tick

/-- `std::make_unique<SmashDoor>()`. -/
def SmashDoor.new (self : Addr) : BehaviorNode World (Ref Door) :=
  .leaf self none SmashDoor.tick

/-- `std::make_unique<EnterRoom>()`. -/
def EnterRoom.new (self : Addr) : BehaviorNode World Payload :=
  .leaf self none EnterRoom.tick

/-- `TBT_PEEL_NODE_MACRO(PeelAgent, TBT_ARGS(Agent&, Door&), Agent&, {std::get<0>(payload)})`. -/
def PeelAgent.new (self : Addr) : PeelNode World Payload (Ref Agent) :=
  PeelNode.new self fun payload _ => payload.1

/-- `TBT_PEEL_NODE_MACRO(PeelDoor, TBT_ARGS(Agent&, Door&), Door&, {std::get<1>(payload)})`. -/
def PeelDoor.new (self : Addr) : PeelNode World Payload (Ref Door) :=
  PeelNode.new self fun payload _ => payload.2

/-- The lambda `wrapPeelAgent` of `main`; `self` is where the `PeelAgent` is allocated. -/
def wrapPeelAgent (self : Addr) (child : BehaviorNode World (Ref Agent)) :
    BehaviorNode World Payload :=
  ((PeelAgent.new self).setChild child).toNode

/-- The lambda `wrapPeelDoor` of `main`; `self` is where the `PeelDoor` is allocated. -/
def wrapPeelDoor (self : Addr) (child : BehaviorNode World (Ref Door)) :
    BehaviorNode World Payload :=
  ((PeelDoor.new self).setChild child).toNode

/-- The `tryUnlockNode` of `main` once its three children are added.  Addresses
number the sixteen allocations of `main` in program order. -/
def tryUnlockNode : SequenceNode World Payload :=
  (((SequenceNode.new 6).addChild (wrapPeelAgent 8 (HaveKey.new 7))).addChild
    (wrapPeelDoor 10 (UnlockDoor.new 9))).addChild (wrapPeelDoor 12 (OpenDoor.new 11))

/-- The `tryOpenDoorNode` of `main` once its four children are added. -/
def tryOpenDoorNode : FallbackNode World Payload :=
  ((((FallbackNode.new 1).addChild (wrapPeelDoor 3 (IsDoorOpen.new 2))).addChild
    (wrapPeelDoor 5 (OpenDoor.new 4))).addChild tryUnlockNode.toNode).addChild
    (wrapPeelDoor 14 (SmashDoor.new 13))

/-- Address of the `EnterRoom` leaf. -/
def enterRoomAddr : Addr := 15

/-- The `rootNode` of `main` once both children are added. -/
def rootNode : SequenceNode World Payload :=
  ((SequenceNode.new 0).addChild tryOpenDoorNode.toNode).addChild (EnterRoom.new enterRoomAddr)

/-- The `tree` of `main` after `tree.setRoot(std::move(rootNode))`. -/
def tree : BehaviorTree World Payload :=
  BehaviorTree.new.setRoot (.owns rootNode.toNode)

/-- Reference to the parameter `agent` of `tryScenario`. -/
def agentRef : Ref Agent :=
  ⟨fun w => w.agent, fun a w => { w with agent := a }⟩

/-- Reference to the parameter `door` of `tryScenario`. -/
def doorRef : Ref Door :=
  ⟨fun w => w.door, fun d w => { w with door := d }⟩

/-- The state at the call `tree.tickRoot(agent, door)` inside `tryScenario`, with
`cout` the output so far. -/
def scenario (agent : Agent) (door : Door) (cout : String) : World :=
  ⟨agent, door, cout⟩

/-- The lambda `tryScenario` of `main`: `tree.tickRoot(agent, door)`. -/
def tryScenario (agent : Agent) (door : Door) (cout : String) :
    Option (RootTicked World Payload) :=
  tree.tickRoot (agentRef, doorRef) (scenario agent door cout)

end FallbackExample

/-! ## `examples/basic_tree.cpp` -/

namespace BasicExample

open TBT

/-- The `struct Arm`. -/
structure Arm where
  name : String
  deriving DecidableEq, Repr

/-- The `struct Body`, with its default member initialisers. -/
structure Body where
  leftArm : Arm := ⟨"leftArm"⟩
  rightArm : Arm := ⟨"righttArm"⟩
  deriving DecidableEq, Repr

/-- The state the example runs in: the local `body` of `main` and the characters
written to `std::cout`. -/
structure World where
  body : Body
  cout : String
  deriving DecidableEq, Repr

/-- A reference `T&` to an object living in `World`. -/
structure Ref (T : Type) where
  get : World → T
  set : T → World → World

/-- `std::cout << s`. -/
def World.print (w : World) (s : String) : World :=
  { w with cout := w.cout ++ s }

/-- The member access `b.leftArm` on a reference `b` to a `Body`. -/
def Ref.leftArm (b : Ref Body) : Ref Arm :=
  ⟨fun w => (b.get w).leftArm, fun a w => b.set { b.get w with leftArm := a } w⟩

/-- The member access `b.rightArm` on a reference `b` to a `Body`. -/
def Ref.rightArm (b : Ref Body) : Ref Arm :=
  ⟨fun w => (b.get w).rightArm, fun a w => b.set { b.get w with rightArm := a } w⟩

/-- `PrintArmNode::tick`. -/
def PrintArmNode.tick (arm : Ref Arm) (w : World) : BehaviorResult × World :=
  (.SUCCESS, (w.print (arm.get w).name).print "\n")

/-- `std::make_unique<PrintArmNode>()`. -/
def PrintArmNode.new (self : Addr) : BehaviorNode World (Ref Arm) :=
  .leaf self none PrintArmNode.tick

/-- `TBT_PEEL_NODE_MACRO(PeelLeftArm, Body&, Arm&, {std::get<0>(payload).leftArm})`. -/
def PeelLeftArm.new (self : Addr) : PeelNode World (Ref Body) (Ref Arm) :=
  PeelNode.new self fun payload _ => payload.leftArm

/-- `TBT_PEEL_NODE_MACRO(PeelRightArm, Body&, Arm&, {std::get<0>(payload).rightArm})`. -/
def PeelRightArm.new (self : Addr) : PeelNode World (Ref Body) (Ref Arm) :=
  PeelNode.new self fun payload _ => payload.rightArm

/-- The `rootNode` of `main` once both peel nodes are added.  Addresses number the
five allocations of `main` in program order. -/
def rootNode : SequenceNode World (Ref Body) :=
  ((SequenceNode.new 0).addChild ((PeelLeftArm.new 1).setChild (PrintArmNode.new 2)).toNode).addChild
    ((PeelRightArm.new 3).setChild (PrintArmNode.new 4)).toNode

/-- The `tree` of `main` after `tree.setRoot(std::move(rootNode))`. -/
def tree : BehaviorTree World (Ref Body) :=
  BehaviorTree.new.setRoot (.owns rootNode.toNode)

/-- Reference to the local `body` of `main`. -/
def bodyRef : Ref Body :=
  ⟨fun w => w.body, fun b w => { w with body := b }⟩

/-- The body of `main`: `Body body; ... tree.tickRoot(body);`, on an empty output. -/
def main : Option (RootTicked World (Ref Body)) :=
  tree.tickRoot bodyRef ⟨{}, ""⟩

end BasicExample

/-! ## General facts used by the theorems below -/

namespace TBT

theorem tickEach_nil {W P : Type} (payload : P) (w : W) :
    tickEach ([] : List (BehaviorNode W P)) payload w = some ⟨[], w, []⟩ := rfl

theorem tickEach_cons {W P : Type} (node : BehaviorNode W P) (rest : List (BehaviorNode W P))
    (payload : P) (w : W) :
    tickEach (node :: rest) payload w =
      match node.tick payload w with
      | none => none
      | some t =>
        (tickEach rest payload t.world).map fun r =>
          ⟨t.result :: r.results, r.world, t.visited ++ r.visited⟩ := rfl

/-- A reference run over a list that succeeds decomposes into the tick of the head
and the run of the tail from the state the head left. -/
theorem tickEach_cons_eq_some {W P : Type} {node : BehaviorNode W P}
    {rest : List (BehaviorNode W P)} {payload : P} {w : W} {r : ChildRun W}
    (h : tickEach (node :: rest) payload w = some r) :
    ∃ t r2, node.tick payload w = some t ∧ tickEach rest payload t.world = some r2 ∧
      r = ⟨t.result :: r2.results, r2.world, t.visited ++ r2.visited⟩ := by
  rw [tickEach_cons] at h
  cases ht : node.tick payload w with
  | none => simp [ht] at h
  | some t =>
    simp only [ht] at h
    cases hr : tickEach rest payload t.world with
    | none => simp [hr] at h
    | some r2 =>
      simp only [hr, Option.map_some', Option.some.injEq] at h
      exact ⟨t, r2, rfl, hr, h.symm⟩

/-- A reference run ticks every node of the list: one result per node. -/
theorem tickEach_length {W P : Type} (nodes : List (BehaviorNode W P)) (payload : P) :
    ∀ (w : W) (r : ChildRun W), tickEach nodes payload w = some r →
      r.results.length = nodes.length := by
  induction nodes with
  | nil =>
    intro w r h
    simp only [tickEach_nil, Option.some.injEq] at h
    subst h
    rfl
  | cons node rest ih =>
    intro w r h
    obtain ⟨t, r2, -, hr2, rfl⟩ := tickEach_cons_eq_some h
    simp [ih t.world r2 hr2]

/-- A reference run without results ran over no node and changed nothing. -/
theorem tickEach_results_nil {W P : Type} (nodes : List (BehaviorNode W P)) (payload : P)
    (w : W) (r : ChildRun W) (h : tickEach nodes payload w = some r) (hr : r.results = []) :
    r = ⟨[], w, []⟩ := by
  have hlen := tickEach_length nodes payload w r h
  rw [hr] at hlen
  have hn : nodes = [] := List.length_eq_zero.mp hlen.symm
  subst hn
  simpa [tickEach_nil] using h.symm

theorem tickSequence_nil {W P : Type} (payload : P) (w : W) :
    (NodeVec.nil : NodeVec W P).tickSequence payload w = some ⟨.SUCCESS, w, []⟩ := by
  simp [NodeVec.tickSequence]

theorem tickSequence_cons {W P : Type} (node : BehaviorNode W P) (rest : NodeVec W P)
    (payload : P) (w : W) :
    (NodeVec.cons node rest).tickSequence payload w =
      match node.tick payload w with
      | none => none
      | some t =>
        if t.result = .FAILURE then some ⟨.FAILURE, t.world, t.visited⟩
        else (rest.tickSequence payload t.world).map (Ticked.after t.visited) := by
  simp [NodeVec.tickSequence]

theorem tickFallback_nil {W P : Type} (payload : P) (w : W) :
    (NodeVec.nil : NodeVec W P).tickFallback payload w = some ⟨.FAILURE, w, []⟩ := by
  simp [NodeVec.tickFallback]

theorem tickFallback_cons {W P : Type} (node : BehaviorNode W P) (rest : NodeVec W P)
    (payload : P) (w : W) :
    (NodeVec.cons node rest).tickFallback payload w =
      match node.tick payload w with
      | none => none
      | some t =>
        if t.result = .SUCCESS then some ⟨.SUCCESS, t.world, t.visited⟩
        else (rest.tickFallback payload t.world).map (Ticked.after t.visited) := by
  simp [NodeVec.tickFallback]

theorem tick_sequence {W P : Type} (self : Addr) (parent : Option Addr) (children : NodeVec W P)
    (payload : P) (w : W) :
    (BehaviorNode.sequence self parent children).tick payload w =
      (children.tickSequence payload w).map (Ticked.enter self) := by
  simp [BehaviorNode.tick]

theorem tick_fallback {W P : Type} (self : Addr) (parent : Option Addr) (children : NodeVec W P)
    (payload : P) (w : W) :
    (BehaviorNode.fallback self parent children).tick payload w =
      (children.tickFallback payload w).map (Ticked.enter self) := by
  simp [BehaviorNode.tick]

theorem tick_peel {W P Q : Type} (self : Addr) (parent : Option Addr) (func : P → W → Q)
    (child : BehaviorNode W Q) (payload : P) (w : W) :
    (BehaviorNode.peel self parent func (.owns child)).tick payload w =
      (child.tick (func payload w) w).map (Ticked.enter self) := by
  simp [BehaviorNode.tick, UniquePtr.tick]

theorem tick_peel_null {W P Q : Type} (self : Addr) (parent : Option Addr) (func : P → W → Q)
    (payload : P) (w : W) :
    (BehaviorNode.peel self parent func (.null : UniquePtr W Q)).tick payload w = none := by
  simp [BehaviorNode.tick, UniquePtr.tick]

/-- The loop of `SequenceNode::tick` over children none of which returns FAILURE
is the reference run over all of them, and returns SUCCESS. -/
theorem tickSequence_of_no_failure {W P : Type} (nodes : List (BehaviorNode W P)) (payload : P) :
    ∀ (w : W) (r : ChildRun W), tickEach nodes payload w = some r →
      (∀ x ∈ r.results, x ≠ BehaviorResult.FAILURE) →
      (NodeVec.ofList nodes).tickSequence payload w = some ⟨.SUCCESS, r.world, r.visited⟩ := by
  induction nodes with
  | nil =>
    intro w r h _
    simp only [tickEach_nil, Option.some.injEq] at h
    subst h
    exact tickSequence_nil payload w
  | cons node rest ih =>
    intro w r h hok
    obtain ⟨t, r2, ht, hr2, rfl⟩ := tickEach_cons_eq_some h
    have h1 : t.result ≠ .FAILURE := hok _ (List.mem_cons_self _ _)
    have h2 : ∀ x ∈ r2.results, x ≠ BehaviorResult.FAILURE :=
      fun x hx => hok x (List.mem_cons_of_mem _ hx)
    simp [NodeVec.ofList, tickSequence_cons, ht, h1, ih t.world r2 hr2 h2, Ticked.after]

/-- The loop of `SequenceNode::tick` stops at the first child that returns FAILURE:
it is the reference run over the children up to and including that one. -/
theorem tickSequence_of_first_failure {W P : Type} (nodes : List (BehaviorNode W P))
    (payload : P) :
    ∀ (k : Nat) (w : W) (r : ChildRun W) (rs : List BehaviorResult),
      tickEach (nodes.take k) payload w = some r →
      r.results = rs ++ [BehaviorResult.FAILURE] →
      (∀ x ∈ rs, x ≠ BehaviorResult.FAILURE) →
      (NodeVec.ofList nodes).tickSequence payload w = some ⟨.FAILURE, r.world, r.visited⟩ := by
  induction nodes with
  | nil =>
    intro k w r rs h hres _
    simp only [List.take_nil, tickEach_nil, Option.some.injEq] at h
    subst h
    simp at hres
  | cons node rest ih =>
    intro k w r rs h hres hok
    cases k with
    | zero =>
      simp only [List.take_zero, tickEach_nil, Option.some.injEq] at h
      subst h
      simp at hres
    | succ k =>
      rw [List.take_succ_cons] at h
      obtain ⟨t, r2, ht, hr2, rfl⟩ := tickEach_cons_eq_some h
      cases rs with
      | nil =>
        simp only [List.nil_append, List.cons.injEq] at hres
        obtain ⟨h1, h2⟩ := hres
        have := tickEach_results_nil _ _ _ _ hr2 h2
        subst this
        simp [NodeVec.ofList, tickSequence_cons, ht, h1]
      | cons x rs =>
        simp only [List.cons_append, List.cons.injEq] at hres
        obtain ⟨h1, h2⟩ := hres
        have hx : t.result ≠ .FAILURE := h1 ▸ hok x (List.mem_cons_self _ _)
        have hrs : ∀ y ∈ rs, y ≠ BehaviorResult.FAILURE :=
          fun y hy => hok y (List.mem_cons_of_mem _ hy)
        simp [NodeVec.ofList, tickSequence_cons, ht, hx, ih k t.world r2 rs hr2 h2 hrs,
          Ticked.after]

/-- The loop of the modelled `FallbackNode::tick` over children none of which
returns SUCCESS is the reference run over all of them, and returns FAILURE. -/
theorem tickFallback_of_no_success {W P : Type} (nodes : List (BehaviorNode W P)) (payload : P) :
    ∀ (w : W) (r : ChildRun W), tickEach nodes payload w = some r →
      (∀ x ∈ r.results, x ≠ BehaviorResult.SUCCESS) →
      (NodeVec.ofList nodes).tickFallback payload w = some ⟨.FAILURE, r.world, r.visited⟩ := by
  induction nodes with
  | nil =>
    intro w r h _
    simp only [tickEach_nil, Option.some.injEq] at h
    subst h
    exact tickFallback_nil payload w
  | cons node rest ih =>
    intro w r h hok
    obtain ⟨t, r2, ht, hr2, rfl⟩ := tickEach_cons_eq_some h
    have h1 : t.result ≠ .SUCCESS := hok _ (List.mem_cons_self _ _)
    have h2 : ∀ x ∈ r2.results, x ≠ BehaviorResult.SUCCESS :=
      fun x hx => hok x (List.mem_cons_of_mem _ hx)
    simp [NodeVec.ofList, tickFallback_cons, ht, h1, ih t.world r2 hr2 h2, Ticked.after]

/-- The loop of the modelled `FallbackNode::tick` stops at the first child that
returns SUCCESS: it is the reference run over the children up to and including
that one. -/
theorem tickFallback_of_first_success {W P : Type} (nodes : List (BehaviorNode W P))
    (payload : P) :
    ∀ (k : Nat) (w : W) (r : ChildRun W) (rs : List BehaviorResult),
      tickEach (nodes.take k) payload w = some r →
      r.results = rs ++ [BehaviorResult.SUCCESS] →
      (∀ x ∈ rs, x ≠ BehaviorResult.SUCCESS) →
      (NodeVec.ofList nodes).tickFallback payload w = some ⟨.SUCCESS, r.world, r.visited⟩ := by
  induction nodes with
  | nil =>
    intro k w r rs h hres _
    simp only [List.take_nil, tickEach_nil, Option.some.injEq] at h
    subst h
    simp at hres
  | cons node rest ih =>
    intro k w r rs h hres hok
    cases k with
    | zero =>
      simp only [List.take_zero, tickEach_nil, Option.some.injEq] at h
      subst h
      simp at hres
    | succ k =>
      rw [List.take_succ_cons] at h
      obtain ⟨t, r2, ht, hr2, rfl⟩ := tickEach_cons_eq_some h
      cases rs with
      | nil =>
        simp only [List.nil_append, List.cons.injEq] at hres
        obtain ⟨h1, h2⟩ := hres
        have := tickEach_results_nil _ _ _ _ hr2 h2
        subst this
        simp [NodeVec.ofList, tickFallback_cons, ht, h1]
      | cons x rs =>
        simp only [List.cons_append, List.cons.injEq] at hres
        obtain ⟨h1, h2⟩ := hres
        have hx : t.result ≠ .SUCCESS := h1 ▸ hok x (List.mem_cons_self _ _)
        have hrs : ∀ y ∈ rs, y ≠ BehaviorResult.SUCCESS :=
          fun y hy => hok y (List.mem_cons_of_mem _ hy)
        simp [NodeVec.ofList, tickFallback_cons, ht, hx, ih k t.world r2 rs hr2 h2 hrs,
          Ticked.after]

/-- Ticking a chain of peel nodes ticks the node below it once, with the composed
projection of the payload, after entering each peel node of the chain. -/
theorem tick_wrap {W : Type} :
    ∀ {P Z : Type} (chain : PeelChain W P Z) (bottom : BehaviorNode W Z) (payload : P) (w : W),
      (chain.wrap bottom).tick payload w =
        (bottom.tick (chain.project payload w) w).map (Ticked.after chain.addrs) := by
  intro P Z chain
  induction chain with
  | done =>
    intro bottom payload w
    cases h : bottom.tick payload w <;>
      simp [PeelChain.wrap, PeelChain.project, PeelChain.addrs, Ticked.after, h]
  | link self parent func rest ih =>
    intro bottom payload w
    rw [PeelChain.wrap, tick_peel, ih]
    cases h : bottom.tick (rest.project (func payload w) w) w <;>
      simp [PeelChain.project, PeelChain.addrs, Ticked.after, Ticked.enter, h]

/-- The parent back-reference plays no part in a tick. -/
theorem tick_setParent {W P : Type} (node : BehaviorNode W P) (parent : Option Addr)
    (payload : P) (w : W) :
    (node.setParent parent).tick payload w = node.tick payload w := by
  cases node <;> simp [BehaviorNode.setParent, BehaviorNode.tick]

/-! ## The claims about the header -/

/-- C1. Sequence short-circuit: when the `k`-th child (1-indexed) of a
`SequenceNode` returns FAILURE and the children before it return something else
(`r` is the run of the first `k` children, each ticked once, in insertion order,
each in the state its predecessor left), `SequenceNode::tick` returns FAILURE,
leaves the state of that run, and has ticked itself and then exactly the nodes of
that run in that order: no child after the `k`-th is ticked (those children may
be anything). -/
theorem sequence_short_circuit {W P : Type} (self : Addr) (parent : Option Addr)
    (children : List (BehaviorNode W P)) (payload : P) (w : W) (k : Nat)
    (r : ChildRun W) (rs : List BehaviorResult)
    (hk : k ≤ children.length)
    (hrun : tickEach (children.take k) payload w = some r)
    (hres : r.results = rs ++ [BehaviorResult.FAILURE])
    (hok : ∀ x ∈ rs, x ≠ BehaviorResult.FAILURE) :
    (BehaviorNode.sequence self parent (NodeVec.ofList children)).tick payload w =
        some ⟨.FAILURE, r.world, self :: r.visited⟩ ∧
      r.results.length = k := by
  constructor
  · rw [tick_sequence, tickSequence_of_first_failure children payload k w r rs hrun hres hok]
    rfl
  · rw [tickEach_length _ _ _ _ hrun, List.length_take]
    exact Nat.min_eq_left hk

/-- C1 at a concrete tree: the second of three leaves fails after a RUNNING one;
the third leaf (address 3) is not ticked and its write to the state is absent. -/
theorem sequence_short_circuit_witness :
    (BehaviorNode.sequence 0 none (NodeVec.ofList
        [BehaviorNode.leaf 1 (some 0) (fun (_ : Unit) (w : Nat) => (.RUNNING, w + 1)),
         BehaviorNode.leaf 2 (some 0) (fun (_ : Unit) (w : Nat) => (.FAILURE, w + 10)),
         BehaviorNode.leaf 3 (some 0) (fun (_ : Unit) (w : Nat) => (.SUCCESS, w + 100))])).tick
        () 0 = some ⟨.FAILURE, 11, [0, 1, 2]⟩ ∧
      [BehaviorResult.RUNNING, BehaviorResult.FAILURE].length = 2 :=
  sequence_short_circuit 0 none
    [BehaviorNode.leaf 1 (some 0) (fun (_ : Unit) (w : Nat) => (.RUNNING, w + 1)),
     BehaviorNode.leaf 2 (some 0) (fun (_ : Unit) (w : Nat) => (.FAILURE, w + 10)),
     BehaviorNode.leaf 3 (some 0) (fun (_ : Unit) (w : Nat) => (.SUCCESS, w + 100))]
    () 0 2 ⟨[.RUNNING, .FAILURE], 11, [1, 2]⟩ [.RUNNING]
    (by decide) (by decide) (by decide) (by decide)

/-- C2. Sequence RUNNING/IDLE pass-through: when no child of a `SequenceNode`
returns FAILURE (`r` is the run of all children, each ticked once, in insertion
order, each in the state its predecessor left; results may be SUCCESS, RUNNING
or IDLE in any mix), `SequenceNode::tick` returns SUCCESS, leaves the state of
that run and has ticked itself and then exactly the nodes of that run: every
child once, in insertion order. -/
theorem sequence_pass_through {W P : Type} (self : Addr) (parent : Option Addr)
    (children : List (BehaviorNode W P)) (payload : P) (w : W) (r : ChildRun W)
    (hrun : tickEach children payload w = some r)
    (hok : ∀ x ∈ r.results, x ≠ BehaviorResult.FAILURE) :
    (BehaviorNode.sequence self parent (NodeVec.ofList children)).tick payload w =
        some ⟨.SUCCESS, r.world, self :: r.visited⟩ ∧
      r.results.length = children.length := by
  constructor
  · rw [tick_sequence, tickSequence_of_no_failure children payload w r hrun hok]
    rfl
  · exact tickEach_length _ _ _ _ hrun

/-- C2 at a concrete tree: children returning RUNNING, IDLE and SUCCESS are all
ticked, in order, and the sequence returns SUCCESS. -/
theorem sequence_pass_through_witness :
    (BehaviorNode.sequence 0 none (NodeVec.ofList
        [BehaviorNode.leaf 1 (some 0) (fun (_ : Unit) (w : Nat) => (.RUNNING, w + 1)),
         BehaviorNode.leaf 2 (some 0) (fun (_ : Unit) (w : Nat) => (.IDLE, w + 10)),
         BehaviorNode.leaf 3 (some 0) (fun (_ : Unit) (w : Nat) => (.SUCCESS, w + 100))])).tick
        () 0 = some ⟨.SUCCESS, 111, [0, 1, 2, 3]⟩ ∧
      [BehaviorResult.RUNNING, BehaviorResult.IDLE, BehaviorResult.SUCCESS].length = 3 :=
  sequence_pass_through 0 none
    [BehaviorNode.leaf 1 (some 0) (fun (_ : Unit) (w : Nat) => (.RUNNING, w + 1)),
     BehaviorNode.leaf 2 (some 0) (fun (_ : Unit) (w : Nat) => (.IDLE, w + 10)),
     BehaviorNode.leaf 3 (some 0) (fun (_ : Unit) (w : Nat) => (.SUCCESS, w + 100))]
    () 0 ⟨[.RUNNING, .IDLE, .SUCCESS], 111, [1, 2, 3]⟩ (by decide) (by decide)

/-- C3. Adapter delegation: a peel node whose `child` pointer owns `child`, ticked
with payload `payload`, ticks `child` once with the payload `peel(payload)` and
returns what the child returned, whatever it is (the state and the nodes ticked
below are those of the child, after the peel node itself); so it returns FAILURE
only when the child returned FAILURE. -/
theorem peel_delegates {W P Q : Type} (n : PeelNode W P Q) (child : BehaviorNode W Q)
    (payload : P) (w : W) (hchild : n.child = UniquePtr.owns child) :
    n.tick payload w = (child.tick (n.peel payload w) w).map (Ticked.enter n.self) ∧
      (∀ tc, child.tick (n.peel payload w) w = some tc →
        n.tick payload w = some ⟨tc.result, tc.world, n.self :: tc.visited⟩) ∧
      (∀ t, n.tick payload w = some t → t.result = BehaviorResult.FAILURE →
        ∃ tc, child.tick (n.peel payload w) w = some tc ∧
          tc.result = BehaviorResult.FAILURE) := by
  have key : n.tick payload w =
      (child.tick (n.peel payload w) w).map (Ticked.enter n.self) := by
    rw [PeelNode.tick, PeelNode.toNode, hchild, tick_peel]
    rfl
  refine ⟨key, ?_, ?_⟩
  · intro tc htc
    rw [key, htc]
    rfl
  · intro t ht hfail
    rw [key] at ht
    cases htc : child.tick (n.peel payload w) w with
    | none => simp [htc] at ht
    | some tc =>
      simp only [htc, Option.map_some', Option.some.injEq] at ht
      subst ht
      exact ⟨tc, rfl, hfail⟩

/-- C3 at a concrete peel node: the projection takes the second component of a
pair, the child (attached by `setChild`) adds it to the state and returns RUNNING. -/
theorem peel_delegates_witness :
    ((PeelNode.new 0 (fun (p : Nat × Nat) (_ : Nat) => p.2)).setChild
        (BehaviorNode.leaf 1 none (fun (q : Nat) (w : Nat) => (.RUNNING, w + q)))).tick
        (3, 4) 10 = some ⟨.RUNNING, 14, [0, 1]⟩ :=
  (peel_delegates
    ((PeelNode.new 0 (fun (p : Nat × Nat) (_ : Nat) => p.2)).setChild
      (BehaviorNode.leaf 1 none (fun (q : Nat) (w : Nat) => (.RUNNING, w + q))))
    (BehaviorNode.leaf 1 (some 0) (fun (q : Nat) (w : Nat) => (.RUNNING, w + q)))
    (3, 4) 10 rfl).2.1 ⟨.RUNNING, 14, [1]⟩ (by decide)

/-- C4. Projection composability: two stacked peel nodes with projections `A` then
`B` over a node `c` tick `c` once with the payload `B(A(x))`, and give the same
result and state as one peel node with the projection `x ↦ B(A(x))` over `c`;
the same holds for a chain of any finite length (`chain.wrap c` is the stack,
`chain.project` the composition of its projections). -/
theorem peel_composes {W X Y Z : Type} (a1 a2 a : Addr) (p1 p2 p : Option Addr)
    (A : X → W → Y) (B : Y → W → Z) (c : BehaviorNode W Z) (x : X) (w : W) :
    ((BehaviorNode.peel a1 p1 A (.owns (BehaviorNode.peel a2 p2 B (.owns c)))).tick x w =
        (c.tick (B (A x w) w) w).map (Ticked.after [a1, a2]) ∧
      ((BehaviorNode.peel a1 p1 A (.owns (BehaviorNode.peel a2 p2 B (.owns c)))).tick x w).map
          Ticked.outcome =
        ((BehaviorNode.peel a p (fun x w => B (A x w) w) (.owns c)).tick x w).map
          Ticked.outcome) ∧
    (∀ (V : Type) (chain : PeelChain W V Z) (v : V),
      (chain.wrap c).tick v w = (c.tick (chain.project v w) w).map (Ticked.after chain.addrs) ∧
      ((chain.wrap c).tick v w).map Ticked.outcome =
        ((BehaviorNode.peel a p chain.project (.owns c)).tick v w).map Ticked.outcome) := by
  refine ⟨⟨?_, ?_⟩, ?_⟩
  · rw [tick_peel, tick_peel]
    cases c.tick (B (A x w) w) w <;> simp [Ticked.after, Ticked.enter]
  · rw [tick_peel, tick_peel, tick_peel]
    cases c.tick (B (A x w) w) w <;> simp [Ticked.outcome, Ticked.enter]
  · intro V chain v
    refine ⟨tick_wrap chain c v w, ?_⟩
    rw [tick_wrap, tick_peel]
    cases c.tick (chain.project v w) w <;> simp [Ticked.outcome, Ticked.enter, Ticked.after]

/-- C5. Fallback short-circuit, for the modelled `FallbackNode::tick`: when the
`k`-th child returns SUCCESS and the children before it return something else
(`r` is the run of the first `k` children, each ticked once, in insertion
order), the fallback returns SUCCESS, leaves the state of that run and has ticked
itself and then exactly the nodes of that run; and when no child returns SUCCESS
(`r2` is the run of all children) it returns FAILURE after ticking all of them. -/
theorem fallback_short_circuit {W P : Type} (self : Addr) (parent : Option Addr)
    (children : List (BehaviorNode W P)) (payload : P) (w : W) :
    (∀ (k : Nat) (r : ChildRun W) (rs : List BehaviorResult),
      k ≤ children.length →
      tickEach (children.take k) payload w = some r →
      r.results = rs ++ [BehaviorResult.SUCCESS] →
      (∀ x ∈ rs, x ≠ BehaviorResult.SUCCESS) →
      (BehaviorNode.fallback self parent (NodeVec.ofList children)).tick payload w =
          some ⟨.SUCCESS, r.world, self :: r.visited⟩ ∧
        r.results.length = k) ∧
    (∀ (r2 : ChildRun W),
      tickEach children payload w = some r2 →
      (∀ x ∈ r2.results, x ≠ BehaviorResult.SUCCESS) →
      (BehaviorNode.fallback self parent (NodeVec.ofList children)).tick payload w =
          some ⟨.FAILURE, r2.world, self :: r2.visited⟩ ∧
        r2.results.length = children.length) := by
  constructor
  · intro k r rs hk hrun hres hok
    constructor
    · rw [tick_fallback, tickFallback_of_first_success children payload k w r rs hrun hres hok]
      rfl
    · rw [tickEach_length _ _ _ _ hrun, List.length_take]
      exact Nat.min_eq_left hk
  · intro r2 hrun hok
    constructor
    · rw [tick_fallback, tickFallback_of_no_success children payload w r2 hrun hok]
      rfl
    · exact tickEach_length _ _ _ _ hrun

/-- C5 at concrete trees: a fallback whose second of three leaves succeeds after a
failing one does not tick the third; a fallback of a failing and a RUNNING leaf
ticks both and returns FAILURE. -/
theorem fallback_short_circuit_witness :
    ((BehaviorNode.fallback 0 none (NodeVec.ofList
        [BehaviorNode.leaf 1 (some 0) (fun (_ : Unit) (w : Nat) => (.FAILURE, w + 1)),
         BehaviorNode.leaf 2 (some 0) (fun (_ : Unit) (w : Nat) => (.SUCCESS, w + 10)),
         BehaviorNode.leaf 3 (some 0) (fun (_ : Unit) (w : Nat) => (.SUCCESS, w + 100))])).tick
        () 0 = some ⟨.SUCCESS, 11, [0, 1, 2]⟩ ∧
      [BehaviorResult.FAILURE, BehaviorResult.SUCCESS].length = 2) ∧
    ((BehaviorNode.fallback 0 none (NodeVec.ofList
        [BehaviorNode.leaf 1 (some 0) (fun (_ : Unit) (w : Nat) => (.FAILURE, w + 1)),
         BehaviorNode.leaf 2 (some 0) (fun (_ : Unit) (w : Nat) => (.RUNNING, w + 10))])).tick
        () 0 = some ⟨.FAILURE, 11, [0, 1, 2]⟩ ∧
      [BehaviorResult.FAILURE, BehaviorResult.RUNNING].length = 2) :=
  ⟨(fallback_short_circuit 0 none
      [BehaviorNode.leaf 1 (some 0) (fun (_ : Unit) (w : Nat) => (.FAILURE, w + 1)),
       BehaviorNode.leaf 2 (some 0) (fun (_ : Unit) (w : Nat) => (.SUCCESS, w + 10)),
       BehaviorNode.leaf 3 (some 0) (fun (_ : Unit) (w : Nat) => (.SUCCESS, w + 100))]
      () 0).1 2 ⟨[.FAILURE, .SUCCESS], 11, [1, 2]⟩ [.FAILURE]
      (by decide) (by decide) (by decide) (by decide),
   (fallback_short_circuit 0 none
      [BehaviorNode.leaf 1 (some 0) (fun (_ : Unit) (w : Nat) => (.FAILURE, w + 1)),
       BehaviorNode.leaf 2 (some 0) (fun (_ : Unit) (w : Nat) => (.RUNNING, w + 10))]
      () 0).2 ⟨[.FAILURE, .RUNNING], 11, [1, 2]⟩ (by decide) (by decide)⟩

/-- C6. Tree inertness: `tickRoot` on a tree whose `rootNode` is null returns
normally, ticks no node, leaves the state as it was and leaves the tree as it
was; a freshly constructed tree and a tree given a null root are such trees. -/
theorem tickRoot_without_root {W P : Type} (t : BehaviorTree W P) (payload : P) (w : W)
    (hroot : t.rootNode = UniquePtr.null) :
    t.tickRoot payload w = some ⟨t, w, []⟩ ∧
      (BehaviorTree.new : BehaviorTree W P).tickRoot payload w =
        some ⟨BehaviorTree.new, w, []⟩ ∧
      (t.setRoot .null).tickRoot payload w = some ⟨t.setRoot .null, w, []⟩ := by
  refine ⟨?_, rfl, rfl⟩
  unfold BehaviorTree.tickRoot
  rw [hroot]

/-- C6 at a concrete tree: the freshly constructed tree, payload 7, state 5. -/
theorem tickRoot_without_root_witness :
    (BehaviorTree.new : BehaviorTree Nat Nat).tickRoot 7 5 = some ⟨BehaviorTree.new, 5, []⟩ :=
  (tickRoot_without_root (BehaviorTree.new : BehaviorTree Nat Nat) 7 5 rfl).1

/-- C7. Tree delegation: `tickRoot` on a tree whose `rootNode` owns `root` ticks
`root` once with the payload it was given: the state left and the nodes ticked,
in order, are those of `root.tick(payload)` (whose result is dropped), and the
tree is as it was; so it is after `setRoot(root)`. -/
theorem tickRoot_delegates {W P : Type} (t : BehaviorTree W P) (root : BehaviorNode W P)
    (payload : P) (w : W) (hroot : t.rootNode = UniquePtr.owns root) :
    t.tickRoot payload w =
        (root.tick payload w).map (fun r => ⟨t, r.world, r.visited⟩) ∧
      (t.setRoot (.owns root)).tickRoot payload w =
        (root.tick payload w).map (fun r => ⟨t.setRoot (.owns root), r.world, r.visited⟩) := by
  refine ⟨?_, rfl⟩
  unfold BehaviorTree.tickRoot
  rw [hroot]

/-- C7 at a concrete tree: the root is a leaf at address 1 adding the payload to
the state; `tickRoot` with payload 7 in state 5 leaves state 12 and ticked node 1. -/
theorem tickRoot_delegates_witness :
    ((BehaviorTree.mk (UniquePtr.owns
        (BehaviorNode.leaf 1 none (fun (q : Nat) (w : Nat) => (.RUNNING, w + q))))).tickRoot
        7 5).map (fun r => (r.world, r.visited)) = some (12, [1]) := by
  rw [(tickRoot_delegates (BehaviorTree.mk (UniquePtr.owns
    (BehaviorNode.leaf 1 none (fun (q : Nat) (w : Nat) => (.RUNNING, w + q)))))
    (BehaviorNode.leaf 1 none (fun (q : Nat) (w : Nat) => (.RUNNING, w + q))) 7 5 rfl).1]
  rfl

/-- C8. Sequence vacuous success: a `SequenceNode` without children returns SUCCESS
for every payload, leaves the state as it was and ticks no node but itself; a
freshly made `SequenceNode` is one. -/
theorem sequence_empty {W P : Type} (self : Addr) (parent : Option Addr) (payload : P) (w : W) :
    (BehaviorNode.sequence self parent (.nil : NodeVec W P)).tick payload w =
        some ⟨.SUCCESS, w, [self]⟩ ∧
      (SequenceNode.new self : SequenceNode W P).tick payload w =
        some ⟨.SUCCESS, w, [self]⟩ := by
  constructor
  · rw [tick_sequence, tickSequence_nil]
    rfl
  · rw [SequenceNode.tick, SequenceNode.toNode, SequenceNode.new, tick_sequence,
      tickSequence_nil]
    rfl

/-- C9. Fallback vacuous failure, for the modelled `FallbackNode::tick`: a
`FallbackNode` without children returns FAILURE for every payload, leaves the
state as it was and ticks no node but itself. -/
theorem fallback_empty {W P : Type} (self : Addr) (parent : Option Addr) (payload : P) (w : W) :
    (BehaviorNode.fallback self parent (.nil : NodeVec W P)).tick payload w =
        some ⟨.FAILURE, w, [self]⟩ ∧
      (FallbackNode.new self : FallbackNode W P).tick payload w =
        some ⟨.FAILURE, w, [self]⟩ := by
  constructor
  · rw [tick_fallback, tickFallback_nil]
    rfl
  · rw [FallbackNode.tick, FallbackNode.toNode, FallbackNode.new, tick_fallback,
      tickFallback_nil]
    rfl

end TBT

/-! ## The claims about `examples/fallback_node.cpp` -/

namespace FallbackExample

open TBT

/-- C10. Door example outcome: for every agent, every door and any earlier output,
the tick of the root of the door tree (with the modelled `FallbackNode`) returns
SUCCESS and ticks `EnterRoom` exactly once if the door is open, or is not locked,
or the agent has the key; otherwise it returns FAILURE and does not tick
`EnterRoom`.  The two scenarios named by the claim: without key at an open,
unlocked door the result is SUCCESS; without key at a closed, locked door the
result is FAILURE and the line of `EnterRoom` is not in the output. -/
theorem door_example_outcome :
    (∀ (agent : Agent) (door : Door) (cout : String),
      (rootNode.tick (agentRef, doorRef) (scenario agent door cout)).map
          (fun t => (t.result, t.visited.count enterRoomAddr)) =
        some (if door.«open» || !door.locked || agent.hasKey
          then (BehaviorResult.SUCCESS, 1) else (BehaviorResult.FAILURE, 0))) ∧
    rootNode.tick (agentRef, doorRef) (scenario ⟨false⟩ ⟨true, false⟩ "") =
      some ⟨.SUCCESS,
        ⟨⟨false⟩, ⟨true, false⟩, "The door is open.\nYou entered the room. Congrats!\n"⟩,
        [0, 1, 3, 2, 15]⟩ ∧
    rootNode.tick (agentRef, doorRef) (scenario ⟨false⟩ ⟨false, true⟩ "") =
      some ⟨.FAILURE,
        ⟨⟨false⟩, ⟨false, true⟩,
          "The door is closed.\nDoor was unable to open because it\x27s locked!\n" ++
          "You smashed the door, but it didn\x27t move a bit.\n"⟩,
        [0, 1, 3, 2, 5, 4, 6, 8, 7, 14, 13]⟩ := by
  refine ⟨?_, by decide, by decide⟩
  intro agent door cout
  obtain ⟨hasKey⟩ := agent
  obtain ⟨isOpen, locked⟩ := door
  cases hasKey <;> cases isOpen <;> cases locked <;> rfl

end FallbackExample

/-! ## More general facts -/

namespace TBT

theorem toList_push_back {W : Type} : ∀ {P : Type} (v : NodeVec W P) (n : BehaviorNode W P),
    (v.push_back n).toList = v.toList ++ [n]
  | _, .nil, _ => rfl
  | _, .cons head tail, n => by
    simp [NodeVec.push_back, NodeVec.toList, toList_push_back tail n]

theorem ofList_toList {W : Type} : ∀ {P : Type} (v : NodeVec W P), NodeVec.ofList v.toList = v
  | _, .nil => rfl
  | _, .cons head tail => by
    simp [NodeVec.toList, NodeVec.ofList, ofList_toList tail]

theorem tickSequence_result {W : Type} : ∀ {P : Type} (v : NodeVec W P) (payload : P) (w : W)
    (t : Ticked W), v.tickSequence payload w = some t →
      t.result = .SUCCESS ∨ t.result = .FAILURE
  | _, .nil, payload, w, t, h => by
    rw [tickSequence_nil] at h
    simp only [Option.some.injEq] at h
    subst h
    exact Or.inl rfl
  | _, .cons head tail, payload, w, t, h => by
    rw [tickSequence_cons] at h
    cases hh : head.tick payload w with
    | none => simp [hh] at h
    | some th =>
      simp only [hh] at h
      by_cases hf : th.result = .FAILURE
      · simp only [hf, if_true, Option.some.injEq] at h
        subst h
        exact Or.inr rfl
      · simp only [hf, if_false] at h
        cases ht : tail.tickSequence payload th.world with
        | none => simp [ht] at h
        | some tt =>
          simp only [ht, Option.map_some', Option.some.injEq] at h
          subst h
          exact tickSequence_result tail payload th.world tt ht

mutual
theorem tick_sublist {W : Type} : ∀ {P : Type} (n : BehaviorNode W P) (payload : P) (w : W),
    n.isSequencePeelTree = true → ∃ t, n.tick payload w = some t ∧ t.visited.Sublist n.addrs
  | _, .leaf self _ f, payload, w, _ => ⟨_, rfl, List.Sublist.refl _⟩
  | _, .sequence self _ children, payload, w, h => by
    obtain ⟨t, ht, hs⟩ := tickSequence_sublist children payload w
      (by simpa [BehaviorNode.isSequencePeelTree] using h)
    refine ⟨t.enter self, by rw [tick_sequence, ht]; rfl, ?_⟩
    simpa [Ticked.enter, BehaviorNode.addrs] using hs
  | _, .fallback _ _ _, _, _, h => by simp [BehaviorNode.isSequencePeelTree] at h
  | _, .peel self _ func child, payload, w, h => by
    obtain ⟨t, ht, hs⟩ := uniquePtr_tick_sublist child (func payload w) w
      (by simpa [BehaviorNode.isSequencePeelTree] using h)
    refine ⟨t.enter self, by simp [BehaviorNode.tick, ht], ?_⟩
    simpa [Ticked.enter, BehaviorNode.addrs] using hs
theorem tickSequence_sublist {W : Type} : ∀ {P : Type} (v : NodeVec W P) (payload : P) (w : W),
    v.isSequencePeelTree = true →
      ∃ t, v.tickSequence payload w = some t ∧ t.visited.Sublist v.addrs
  | _, .nil, payload, w, _ => ⟨_, tickSequence_nil payload w, by simp [NodeVec.addrs]⟩
  | _, .cons head tail, payload, w, h => by
    have h2 : head.isSequencePeelTree = true ∧ tail.isSequencePeelTree = true := by
      simpa [NodeVec.isSequencePeelTree] using h
    obtain ⟨th, hth, hsh⟩ := tick_sublist head payload w h2.1
    obtain ⟨tt, htt, hst⟩ := tickSequence_sublist tail payload th.world h2.2
    by_cases hf : th.result = .FAILURE
    · refine ⟨⟨.FAILURE, th.world, th.visited⟩, by simp [tickSequence_cons, hth, hf], ?_⟩
      simpa [NodeVec.addrs] using hsh.trans (List.sublist_append_left _ _)
    · refine ⟨tt.after th.visited, by simp [tickSequence_cons, hth, hf, htt], ?_⟩
      simpa [NodeVec.addrs, Ticked.after] using List.Sublist.append hsh hst
theorem uniquePtr_tick_sublist {W : Type} : ∀ {P : Type} (c : UniquePtr W P) (payload : P) (w : W),
    c.isSequencePeelTree = true → ∃ t, c.tick payload w = some t ∧ t.visited.Sublist c.addrs
  | _, .null, _, _, h => by simp [UniquePtr.isSequencePeelTree] at h
  | _, .owns node, payload, w, h => by
    obtain ⟨t, ht, hs⟩ := tick_sublist node payload w
      (by simpa [UniquePtr.isSequencePeelTree] using h)
    exact ⟨t, by simpa [UniquePtr.tick] using ht, by simpa [UniquePtr.addrs] using hs⟩
end

mutual
/-- A tick leaves the object it is called on as it was: the tick as a method of a
mutable object is the tick as a function, together with the unchanged object. -/
theorem tickObject_eq {W : Type} : ∀ {P : Type} (n : BehaviorNode W P) (payload : P) (w : W),
    n.tickObject payload w = (n.tick payload w).map (fun t => (t, n))
  | _, .leaf self parent f, payload, w => rfl
  | _, .sequence self parent children, payload, w => by
    simp only [BehaviorNode.tickObject, tickSequenceObject_eq children payload w, tick_sequence]
    cases children.tickSequence payload w <;> rfl
  | _, .fallback self parent children, payload, w => by
    simp only [BehaviorNode.tickObject, tickFallbackObject_eq children payload w, tick_fallback]
    cases children.tickFallback payload w <;> rfl
  | _, .peel self parent func child, payload, w => by
    simp only [BehaviorNode.tickObject, BehaviorNode.tick,
      uniquePtr_tickObject_eq child (func payload w) w]
    cases child.tick (func payload w) w <;> rfl
/-- The loop of `SequenceNode::tick` leaves the children vector as it was. -/
theorem tickSequenceObject_eq {W : Type} : ∀ {P : Type} (v : NodeVec W P) (payload : P) (w : W),
    v.tickSequenceObject payload w = (v.tickSequence payload w).map (fun t => (t, v))
  | _, .nil, payload, w => by
    simp [NodeVec.tickSequenceObject, tickSequence_nil]
  | _, .cons node rest, payload, w => by
    simp only [NodeVec.tickSequenceObject, tickObject_eq node payload w, tickSequence_cons]
    cases node.tick payload w with
    | none => rfl
    | some t =>
      by_cases hf : t.result = .FAILURE
      · simp [hf]
      · simp only [Option.map_some', hf, if_false, tickSequenceObject_eq rest payload t.world]
        cases rest.tickSequence payload t.world <;> rfl
/-- The loop of the modelled `FallbackNode::tick` leaves the children vector as it was. -/
theorem tickFallbackObject_eq {W : Type} : ∀ {P : Type} (v : NodeVec W P) (payload : P) (w : W),
    v.tickFallbackObject payload w = (v.tickFallback payload w).map (fun t => (t, v))
  | _, .nil, payload, w => by
    simp [NodeVec.tickFallbackObject, tickFallback_nil]
  | _, .cons node rest, payload, w => by
    simp only [NodeVec.tickFallbackObject, tickObject_eq node payload w, tickFallback_cons]
    cases node.tick payload w with
    | none => rfl
    | some t =>
      by_cases hf : t.result = .SUCCESS
      · simp [hf]
      · simp only [Option.map_some', hf, if_false, tickFallbackObject_eq rest payload t.world]
        cases rest.tickFallback payload t.world <;> rfl
/-- A tick through a `unique_ptr` leaves the pointer and its object as they were. -/
theorem uniquePtr_tickObject_eq {W : Type} : ∀ {P : Type} (c : UniquePtr W P) (payload : P)
    (w : W), c.tickObject payload w = (c.tick payload w).map (fun t => (t, c))
  | _, .null, _, _ => by simp [UniquePtr.tickObject, UniquePtr.tick]
  | _, .owns node, payload, w => by
    simp only [UniquePtr.tickObject, UniquePtr.tick, tickObject_eq node payload w]
    cases node.tick payload w <;> rfl
end

/-- `tickRoot` leaves the tree as it was: with the tree after the call computed from
the root after its tick, it is `tickRoot` as embedded above. -/
theorem tickRootObject_eq {W P : Type} (t : BehaviorTree W P) (payload : P) (w : W) :
    t.tickRootObject payload w = t.tickRoot payload w := by
  obtain ⟨root⟩ := t
  cases root with
  | null => rfl
  | owns node =>
    simp only [BehaviorTree.tickRootObject, BehaviorTree.tickRoot, tickObject_eq node payload w]
    cases node.tick payload w <;> rfl

/-- A `tick` leaves a `SequenceNode` object as it was. -/
theorem apply_tick {W P : Type} (s : SequenceNode W P) (payload : P) (w : W)
    (s2 : SequenceNode W P) (h : (SequenceNode.Op.tick payload w).apply s = some s2) :
    s2 = s := by
  simp only [SequenceNode.Op.apply, tickSequenceObject_eq s.children payload w] at h
  cases hs : s.children.tickSequence payload w with
  | none => simp [hs] at h
  | some t =>
    simp only [hs, Option.map_some', Option.some.injEq] at h
    exact h.symm

/-- No list of operations on a `SequenceNode` removes or reorders children: the
children before are the first children after, in the same order. -/
theorem applyAll_prefix {W P : Type} (ops : List (SequenceNode.Op W P)) :
    ∀ (s s2 : SequenceNode W P), SequenceNode.applyAll ops s = some s2 →
      List.IsPrefix s.children.toList s2.children.toList := by
  induction ops with
  | nil =>
    intro s s2 h
    simp only [SequenceNode.applyAll, Option.some.injEq] at h
    subst h
    exact List.prefix_refl _
  | cons op ops ih =>
    intro s s2 h
    simp only [SequenceNode.applyAll] at h
    cases hop : op.apply s with
    | none => simp [hop] at h
    | some s1 =>
      simp only [hop] at h
      have h1 : List.IsPrefix s.children.toList s1.children.toList := by
        cases op with
        | addChild node =>
          simp only [SequenceNode.Op.apply, Option.some.injEq] at hop
          subst hop
          exact ⟨[node.setParent (some s.self)], by simp [SequenceNode.addChild, toList_push_back]⟩
        | tick payload w =>
          rw [apply_tick s payload w s1 hop]
      exact h1.trans (ih s1 s2 h)

/-- The loop of `SequenceNode::tick` over `xs ++ ys` is the loop over `xs` and, if
that ends without FAILURE, the loop over `ys` from the state it left. -/
theorem tickSequence_append {W P : Type} (xs ys : List (BehaviorNode W P)) (payload : P) :
    ∀ w : W, (NodeVec.ofList (xs ++ ys)).tickSequence payload w =
      match (NodeVec.ofList xs).tickSequence payload w with
      | none => none
      | some t =>
        if t.result = .FAILURE then some t
        else ((NodeVec.ofList ys).tickSequence payload t.world).map (Ticked.after t.visited) := by
  induction xs with
  | nil =>
    intro w
    simp only [List.nil_append, NodeVec.ofList, tickSequence_nil]
    cases (NodeVec.ofList ys).tickSequence payload w <;> simp [Ticked.after]
  | cons x xs ih =>
    intro w
    have h1 : NodeVec.ofList ((x :: xs) ++ ys) = NodeVec.cons x (NodeVec.ofList (xs ++ ys)) := rfl
    have h2 : NodeVec.ofList (x :: xs) = NodeVec.cons x (NodeVec.ofList xs) := rfl
    rw [h1, h2, tickSequence_cons, tickSequence_cons]
    cases hx : x.tick payload w with
    | none => rfl
    | some tx =>
      by_cases hf : tx.result = .FAILURE
      · simp [hf]
      · simp only [hf, if_false]
        rw [ih tx.world]
        cases hxs : (NodeVec.ofList xs).tickSequence payload tx.world with
        | none => rfl
        | some t =>
          by_cases hf2 : t.result = .FAILURE
          · simp [hf2, Ticked.after]
          · simp only [hf2, if_false, Option.map_some', Ticked.after]
            cases (NodeVec.ofList ys).tickSequence payload t.world <;> simp [Ticked.after]

/-- With a root attached, `tickRoot` is the tick of the root with the result dropped. -/
theorem tickRoot_owns {W P : Type} (t : BehaviorTree W P) (root : BehaviorNode W P)
    (payload : P) (w : W) (hroot : t.rootNode = UniquePtr.owns root) :
    t.tickRoot payload w = (root.tick payload w).map (fun r => ⟨t, r.world, r.visited⟩) := by
  unfold BehaviorTree.tickRoot
  rw [hroot]

/-- Successive `tickRoot` calls on a tree with a root are successive ticks of that
root, and leave the tree as it was. -/
theorem tickRoots_owns {W P : Type} (t : BehaviorTree W P) (root : BehaviorNode W P)
    (hroot : t.rootNode = UniquePtr.owns root) (payloads : List P) :
    ∀ w : W, t.tickRoots payloads w =
      (root.ticks payloads w).map (fun r => ⟨t, r.1, r.2⟩) := by
  induction payloads with
  | nil => intro w; rfl
  | cons payload rest ih =>
    intro w
    simp only [BehaviorTree.tickRoots, BehaviorNode.ticks, tickRoot_owns t root payload w hroot]
    cases h : root.tick payload w with
    | none => rfl
    | some th =>
      simp only [Option.map_some', ih th.world]
      cases root.ticks rest th.world <;> rfl

/-- A reference run over `xs ++ ys` is the run over `xs` followed by the run over
`ys` from the state the first left. -/
theorem tickEach_append {W P : Type} (xs ys : List (BehaviorNode W P)) (payload : P) :
    ∀ w : W, tickEach (xs ++ ys) payload w =
      match tickEach xs payload w with
      | none => none
      | some r =>
        (tickEach ys payload r.world).map fun r2 =>
          ⟨r.results ++ r2.results, r2.world, r.visited ++ r2.visited⟩ := by
  induction xs with
  | nil =>
    intro w
    simp only [List.nil_append, tickEach_nil, List.nil_append]
    cases tickEach ys payload w <;> rfl
  | cons x xs ih =>
    intro w
    simp only [List.cons_append, tickEach_cons]
    cases hx : x.tick payload w with
    | none => rfl
    | some tx =>
      simp only [ih tx.world]
      cases hxs : tickEach xs payload tx.world with
      | none => rfl
      | some r =>
        simp only [Option.map_some']
        cases tickEach ys payload r.world <;> simp

end TBT

/-! ## Further claims about the examples -/

namespace FallbackExample

open TBT

/-- C11. Door example traces: in each of the four scenarios of `main`, one
`tickRoot` (with the modelled `FallbackNode`) appends to the output exactly the
lines of the expected-output comment, in order; `cout` is the output before. -/
theorem door_example_traces (cout : String) :
    (tryScenario ⟨false⟩ ⟨true, false⟩ cout).map (fun r => r.world.cout) =
      some (cout ++ ("The door is open.\n" ++ "You entered the room. Congrats!\n")) ∧
    (tryScenario ⟨false⟩ ⟨false, false⟩ cout).map (fun r => r.world.cout) =
      some (cout ++ ("The door is closed.\n" ++ "Door opened!\n" ++
        "You entered the room. Congrats!\n")) ∧
    (tryScenario ⟨false⟩ ⟨false, true⟩ cout).map (fun r => r.world.cout) =
      some (cout ++ ("The door is closed.\n" ++
        "Door was unable to open because it\x27s locked!\n" ++
        "You smashed the door, but it didn\x27t move a bit.\n")) ∧
    (tryScenario ⟨true⟩ ⟨false, true⟩ cout).map (fun r => r.world.cout) =
      some (cout ++ ("The door is closed.\n" ++
        "Door was unable to open because it\x27s locked!\n" ++
        "Door unlocked!\n" ++ "Door opened!\n" ++ "You entered the room. Congrats!\n")) := by
  refine ⟨?_, ?_, ?_, ?_⟩
  · have h : (tryScenario ⟨false⟩ ⟨true, false⟩ cout).map (fun r => r.world.cout) =
        some ((cout ++ ("The door is " ++ "open" ++ ".\n")) ++
          "You entered the room. Congrats!\n") := rfl
    rw [h, String.append_assoc]
    rfl
  · have h : (tryScenario ⟨false⟩ ⟨false, false⟩ cout).map (fun r => r.world.cout) =
        some (((cout ++ ("The door is " ++ "closed" ++ ".\n")) ++ "Door opened!\n") ++
          "You entered the room. Congrats!\n") := rfl
    rw [h, String.append_assoc, String.append_assoc]
    rfl
  · have h : (tryScenario ⟨false⟩ ⟨false, true⟩ cout).map (fun r => r.world.cout) =
        some (((cout ++ ("The door is " ++ "closed" ++ ".\n")) ++
          "Door was unable to open because it\x27s locked!\n") ++
          "You smashed the door, but it didn\x27t move a bit.\n") := rfl
    rw [h, String.append_assoc, String.append_assoc]
    rfl
  · have h : (tryScenario ⟨true⟩ ⟨false, true⟩ cout).map (fun r => r.world.cout) =
        some (((((cout ++ ("The door is " ++ "closed" ++ ".\n")) ++
          "Door was unable to open because it\x27s locked!\n") ++
          "Door unlocked!\n") ++ "Door opened!\n") ++
          "You entered the room. Congrats!\n") := rfl
    rw [h, String.append_assoc, String.append_assoc, String.append_assoc, String.append_assoc]
    rfl

end FallbackExample

namespace BasicExample

open TBT

/-- C12. Sibling adapters in `basic_tree.cpp`: one `tickRoot` with a
default-constructed `Body` ticks the sequence, `PeelLeftArm` and its
`PrintArmNode`, then `PeelRightArm` and its `PrintArmNode`, and prints two
lines: `leftArm`, then `righttArm` (the default initialiser of `Body::rightArm`),
which is not the `rightArm` of the expected-output comment. -/
theorem basic_tree_output :
    main.map (fun r => (r.world.cout, r.visited)) =
      some ("leftArm\nrighttArm\n", [0, 1, 2, 3, 4]) ∧
    main.map (fun r => r.world.cout) ≠ some "leftArm\nrightArm\n" := by
  constructor <;> decide

end BasicExample

/-! ## Further claims about the header -/

namespace TBT

/-- C13. Root replacement: after `setRoot(a)` and then `setRoot(b)` the root is
`b`, and any number of subsequent `tickRoot` calls are exactly the successive
ticks of `b` (state left, nodes ticked), the tree staying as it is: `a` plays no
part in them. -/
theorem setRoot_replaces {W P : Type} (t : BehaviorTree W P) (a b : BehaviorNode W P)
    (payloads : List P) (w : W) :
    ((t.setRoot (.owns a)).setRoot (.owns b)).rootNode = UniquePtr.owns b ∧
      ((t.setRoot (.owns a)).setRoot (.owns b)).tickRoots payloads w =
        (b.ticks payloads w).map
          (fun r => ⟨(t.setRoot (.owns a)).setRoot (.owns b), r.1, r.2⟩) :=
  ⟨rfl, tickRoots_owns _ b rfl payloads w⟩

/-- C15. Append-only children: `addChild(n)` on a `SequenceNode` with children `cs`
makes the children `cs` followed by `n`, where `n` is as before but for its
parent, which is now the address of the `SequenceNode`; the length grows by one
and the `SequenceNode` is otherwise as it was.  `SequenceNode::tick` on the
result is the tick of the node as it was (the old children, in their order)
and then, if none of them failed, the tick of `n`; so it ticks the children
`cs ++ [n]` in this order, each once, up to the first that fails or to the
end.  No list of operations of the class (`addChild`, `tick`) removes or
reorders children: the children before are the first children after. -/
theorem addChild_appends {W P : Type} (s : SequenceNode W P) (n : BehaviorNode W P) :
    (s.addChild n).children.toList = s.children.toList ++ [n.setParent (some s.self)] ∧
      (s.addChild n).children.toList.length = s.children.toList.length + 1 ∧
      (n.setParent (some s.self)).parent = some s.self ∧
      (n.setParent (some s.self)).self = n.self ∧
      (s.addChild n).self = s.self ∧ (s.addChild n).parent = s.parent ∧
      (s.addChild n).toNode = BehaviorNode.sequence s.self s.parent
        (NodeVec.ofList (s.children.toList ++ [n.setParent (some s.self)])) ∧
      (∀ (payload : P) (w : W),
        tickEach (s.addChild n).children.toList payload w =
          tickEach (s.children.toList ++ [n]) payload w) ∧
      (∀ (payload : P) (w : W),
        (s.addChild n).tick payload w =
          match s.tick payload w with
          | none => none
          | some t =>
            if t.result = BehaviorResult.FAILURE then some t
            else (n.tick payload t.world).map fun tn =>
              ⟨if tn.result = BehaviorResult.FAILURE then .FAILURE else .SUCCESS,
                tn.world, t.visited ++ tn.visited⟩) ∧
      (∀ (payload : P) (w : W) (r : ChildRun W),
        tickEach (s.children.toList ++ [n]) payload w = some r →
        (∀ x ∈ r.results, x ≠ BehaviorResult.FAILURE) →
        (s.addChild n).tick payload w = some ⟨.SUCCESS, r.world, s.self :: r.visited⟩) ∧
      (∀ (payload : P) (w : W) (k : Nat) (r : ChildRun W) (rs : List BehaviorResult),
        tickEach ((s.children.toList ++ [n]).take k) payload w = some r →
        r.results = rs ++ [BehaviorResult.FAILURE] →
        (∀ x ∈ rs, x ≠ BehaviorResult.FAILURE) →
        (s.addChild n).tick payload w = some ⟨.FAILURE, r.world, s.self :: r.visited⟩) ∧
      (∀ (ops : List (SequenceNode.Op W P)) (s2 : SequenceNode W P),
        SequenceNode.applyAll ops s = some s2 →
        List.IsPrefix s.children.toList s2.children.toList) := by
  have h1 : (s.addChild n).children.toList =
      s.children.toList ++ [n.setParent (some s.self)] := by
    simp [SequenceNode.addChild, toList_push_back]
  have h2 : (s.addChild n).toNode = BehaviorNode.sequence s.self s.parent
      (NodeVec.ofList (s.children.toList ++ [n.setParent (some s.self)])) := by
    rw [← h1, ofList_toList]
    rfl
  have h3 : ∀ (payload : P) (w : W), tickEach (s.addChild n).children.toList payload w =
      tickEach (s.children.toList ++ [n]) payload w := by
    intro payload w
    rw [h1, tickEach_append, tickEach_append]
    cases tickEach s.children.toList payload w with
    | none => rfl
    | some r => simp only [tickEach_cons, tick_setParent]
  have h4 : ∀ (payload : P) (w : W) (l : List (BehaviorNode W P)),
      (NodeVec.ofList (l ++ [n.setParent (some s.self)])).tickSequence payload w =
        (NodeVec.ofList (l ++ [n])).tickSequence payload w := by
    intro payload w l
    rw [tickSequence_append, tickSequence_append]
    simp only [NodeVec.ofList, tickSequence_cons, tick_setParent]
  refine ⟨h1, by simp [h1], ?_, ?_, rfl, rfl, h2, h3, ?_, ?_, ?_, ?_⟩
  · cases n <;> rfl
  · cases n <;> rfl
  · intro payload w
    rw [SequenceNode.tick, h2, tick_sequence, tickSequence_append, SequenceNode.tick,
      SequenceNode.toNode, tick_sequence, ofList_toList]
    cases hs : s.children.tickSequence payload w with
    | none => rfl
    | some t =>
      by_cases hf : t.result = .FAILURE
      · simp [hf, Ticked.enter]
      · simp only [hf, if_false, Option.map_some', Ticked.enter, NodeVec.ofList,
          tickSequence_cons, tickSequence_nil, tick_setParent]
        cases hn : n.tick payload t.world with
        | none => rfl
        | some tn =>
          by_cases hfn : tn.result = .FAILURE <;> simp [hfn, Ticked.after, Ticked.enter]
  · intro payload w r hrun hok
    rw [SequenceNode.tick, h2, tick_sequence, h4,
      tickSequence_of_no_failure _ payload w r hrun hok]
    rfl
  · intro payload w k r rs hrun hres hok
    rw [SequenceNode.tick, h2, tick_sequence, h4,
      tickSequence_of_first_failure _ payload k w r rs hrun hres hok]
    rfl
  · intro ops s2 h
    exact applyAll_prefix ops s s2 h

/-- C15 at a concrete node: a sequence (address 0) holding a RUNNING leaf (1) gets a
FAILURE leaf (2) and then a SUCCESS leaf (3); its tick then ticks 0, 1, 2 in
this order and stops; after those two `addChild` and a `tick` the first child
is still the leaf it was. -/
theorem addChild_appends_witness :
    (((SequenceNode.new 0 : SequenceNode Nat Unit).addChild
        (BehaviorNode.leaf 1 none (fun (_ : Unit) (w : Nat) => (.RUNNING, w + 1)))).addChild
        (BehaviorNode.leaf 2 none (fun (_ : Unit) (w : Nat) => (.FAILURE, w + 10)))).tick () 0 =
      some ⟨.FAILURE, 11, [0, 1, 2]⟩ ∧
    ∀ s2, SequenceNode.applyAll
        [SequenceNode.Op.addChild
          (BehaviorNode.leaf 2 none (fun (_ : Unit) (w : Nat) => (.FAILURE, w + 10))),
         SequenceNode.Op.addChild
          (BehaviorNode.leaf 3 none (fun (_ : Unit) (w : Nat) => (.SUCCESS, w + 100))),
         SequenceNode.Op.tick () 0]
        ((SequenceNode.new 0 : SequenceNode Nat Unit).addChild
          (BehaviorNode.leaf 1 none (fun (_ : Unit) (w : Nat) => (.RUNNING, w + 1)))) = some s2 →
      List.IsPrefix
        ((SequenceNode.new 0 : SequenceNode Nat Unit).addChild
          (BehaviorNode.leaf 1 none (fun (_ : Unit) (w : Nat) => (.RUNNING, w + 1)))).children.toList
        s2.children.toList :=
  ⟨(addChild_appends
      ((SequenceNode.new 0 : SequenceNode Nat Unit).addChild
        (BehaviorNode.leaf 1 none (fun (_ : Unit) (w : Nat) => (.RUNNING, w + 1))))
      (BehaviorNode.leaf 2 none (fun (_ : Unit) (w : Nat) => (.FAILURE, w + 10)))).2.2.2.2.2.2.2.2.2.2.1
      () 0 2 ⟨[.RUNNING, .FAILURE], 11, [1, 2]⟩ [.RUNNING] (by decide) (by decide) (by decide),
   (addChild_appends
      ((SequenceNode.new 0 : SequenceNode Nat Unit).addChild
        (BehaviorNode.leaf 1 none (fun (_ : Unit) (w : Nat) => (.RUNNING, w + 1))))
      (BehaviorNode.leaf 2 none (fun (_ : Unit) (w : Nat) => (.FAILURE, w + 10)))).2.2.2.2.2.2.2.2.2.2.2
      _⟩

/-- C16, as the code has it. Ticking a peel node whose `child` was never set is not
detected: the call goes through the null `child` pointer, so the tick has no
defined outcome; it neither returns a `BehaviorResult` nor ends in a loud
failure.  A freshly made peel node is such a node. -/
theorem peel_without_child {W P Q : Type} (n : PeelNode W P Q) (payload : P) (w : W)
    (hchild : n.child = UniquePtr.null) :
    n.tick payload w = none ∧
      n.toNode.ending payload w = Ending.undefined ∧
      n.toNode.ending payload w ≠ Ending.loud ∧
      (∀ (self : Addr) (func : P → W → Q),
        (PeelNode.new self func).tick payload w = none) := by
  have h : n.tick payload w = none := by
    rw [PeelNode.tick, PeelNode.toNode, hchild, tick_peel_null]
  have h2 : n.toNode.ending payload w = Ending.undefined := by
    unfold BehaviorNode.ending
    rw [PeelNode.tick] at h
    rw [h]
  refine ⟨h, h2, ?_, ?_⟩
  · rw [h2]
    exact fun hne => Ending.noConfusion hne
  · intro self func
    rw [PeelNode.tick, PeelNode.toNode, PeelNode.new, tick_peel_null]

/-- C16 as the code has it, at a concrete node: a fresh peel node at address 0
projecting a number to itself, ticked with payload 7 in state 5. -/
theorem peel_without_child_witness :
    (PeelNode.new 0 (fun (p : Nat) (_ : Nat) => p) : PeelNode Nat Nat Nat).tick 7 5 = none ∧
      (PeelNode.new 0 (fun (p : Nat) (_ : Nat) => p) : PeelNode Nat Nat Nat).toNode.ending 7 5 =
        Ending.undefined :=
  have h := peel_without_child
    (PeelNode.new 0 (fun (p : Nat) (_ : Nat) => p) : PeelNode Nat Nat Nat) 7 5 rfl
  ⟨h.1, h.2.1⟩

/-- C16 as claimed fails: the tick of a fresh peel node at address 0, with payload
7 in state 5, does not end in a loud failure. -/
theorem peel_without_child_not_loud :
    ¬ ((PeelNode.new 0 (fun (p : Nat) (_ : Nat) => p) : PeelNode Nat Nat Nat).toNode.ending 7 5 =
      Ending.loud) := by
  decide

/-- C17. Sequence result range: whenever `SequenceNode::tick` returns, it returns
SUCCESS or FAILURE, never IDLE or RUNNING; it does return on every tree built
from sequences and peel nodes with their children attached; when every child
returns RUNNING or IDLE it returns SUCCESS; so a `SequenceNode` holding the
single child `c` returns SUCCESS where `c` alone returns RUNNING or IDLE. -/
theorem sequence_result_range {W P : Type} (self : Addr) (parent : Option Addr)
    (children : List (BehaviorNode W P)) (payload : P) (w : W) :
    (∀ t, (BehaviorNode.sequence self parent (NodeVec.ofList children)).tick payload w = some t →
      t.result = BehaviorResult.SUCCESS ∨ t.result = BehaviorResult.FAILURE) ∧
    ((NodeVec.ofList children).isSequencePeelTree = true →
      ∃ t, (BehaviorNode.sequence self parent (NodeVec.ofList children)).tick payload w = some t ∧
        (t.result = BehaviorResult.SUCCESS ∨ t.result = BehaviorResult.FAILURE)) ∧
    (∀ r, tickEach children payload w = some r →
      (∀ x ∈ r.results, x = BehaviorResult.RUNNING ∨ x = BehaviorResult.IDLE) →
      (BehaviorNode.sequence self parent (NodeVec.ofList children)).tick payload w =
        some ⟨.SUCCESS, r.world, self :: r.visited⟩) ∧
    (∀ (c : BehaviorNode W P) (tc : Ticked W), c.tick payload w = some tc →
      tc.result = BehaviorResult.RUNNING ∨ tc.result = BehaviorResult.IDLE →
      ∃ t, (BehaviorNode.sequence self parent (NodeVec.ofList [c])).tick payload w = some t ∧
        t.result = BehaviorResult.SUCCESS ∧ t.result ≠ tc.result) := by
  have range : ∀ (cs : NodeVec W P) (t : Ticked W),
      (BehaviorNode.sequence self parent cs).tick payload w = some t →
      t.result = BehaviorResult.SUCCESS ∨ t.result = BehaviorResult.FAILURE := by
    intro cs t ht
    rw [tick_sequence] at ht
    cases hs : cs.tickSequence payload w with
    | none => simp [hs] at ht
    | some ts =>
      simp only [hs, Option.map_some', Option.some.injEq] at ht
      subst ht
      exact tickSequence_result cs payload w ts hs
  refine ⟨range _, ?_, ?_, ?_⟩
  · intro hbuilt
    obtain ⟨t, ht, -⟩ := tickSequence_sublist (NodeVec.ofList children) payload w hbuilt
    exact ⟨t.enter self, by rw [tick_sequence, ht]; rfl,
      tickSequence_result _ payload w t ht⟩
  · intro r hrun hres
    have hok : ∀ x ∈ r.results, x ≠ BehaviorResult.FAILURE := by
      intro x hx
      rcases hres x hx with h | h <;> simp [h]
    rw [tick_sequence, tickSequence_of_no_failure children payload w r hrun hok]
    rfl
  · intro c tc hc hres
    have hne : tc.result ≠ BehaviorResult.FAILURE := by
      rcases hres with h | h <;> simp [h]
    refine ⟨⟨.SUCCESS, tc.world, self :: (tc.visited ++ [])⟩, ?_, rfl, ?_⟩
    · simp [tick_sequence, NodeVec.ofList, tickSequence_cons, tickSequence_nil, hc, hne,
        Ticked.after, Ticked.enter]
    · rcases hres with h | h <;> simp [h]

/-- C17 at concrete trees: a sequence of a RUNNING and an IDLE leaf returns
SUCCESS; a sequence holding one RUNNING leaf returns SUCCESS, not RUNNING. -/
theorem sequence_result_range_witness :
    (BehaviorNode.sequence 0 none (NodeVec.ofList
        [BehaviorNode.leaf 1 (some 0) (fun (_ : Unit) (w : Nat) => (.RUNNING, w + 1)),
         BehaviorNode.leaf 2 (some 0) (fun (_ : Unit) (w : Nat) => (.IDLE, w + 10))])).tick
        () 0 = some ⟨.SUCCESS, 11, [0, 1, 2]⟩ ∧
    (∃ t, (BehaviorNode.sequence 0 none (NodeVec.ofList
        [BehaviorNode.leaf 1 (some 0) (fun (_ : Unit) (w : Nat) => (.RUNNING, w + 1))])).tick
        () 0 = some t ∧ t.result = BehaviorResult.SUCCESS ∧
        t.result ≠ BehaviorResult.RUNNING) :=
  ⟨(sequence_result_range 0 none
      [BehaviorNode.leaf 1 (some 0) (fun (_ : Unit) (w : Nat) => (.RUNNING, w + 1)),
       BehaviorNode.leaf 2 (some 0) (fun (_ : Unit) (w : Nat) => (.IDLE, w + 10))]
      () 0).2.2.1 ⟨[.RUNNING, .IDLE], 11, [1, 2]⟩ (by decide) (by decide),
   (sequence_result_range 0 none ([] : List (BehaviorNode Nat Unit)) () 0).2.2.2
      (BehaviorNode.leaf 1 (some 0) (fun (_ : Unit) (w : Nat) => (.RUNNING, w + 1)))
      ⟨.RUNNING, 1, [1]⟩ (by decide) (by decide)⟩

/-- C14. Stateless, deterministic ticking.  On a tree built from sequences and peel
nodes (children attached) over leaves, a tick, taken as a method that may change
the object it is called on, returns and leaves the tree `n1`, which is the tree
as it was; a second tick of the tree so left, from an equal state, returns the
same result, ticks the same nodes in the same order and ends in the same state,
and from any state and payload the tree so left ticks as the tree never ticked;
`tickRoot` likewise leaves the tree object as it was.  In particular, when in
the earlier tick of a sequence the `k`-th child was reached and returned
RUNNING, that tick went through that child, and any tick after it starts at the
first child again. -/
theorem tick_deterministic {W P : Type} (n : BehaviorNode W P) (payload : P) (w1 w2 : W)
    (hbuilt : n.isSequencePeelTree = true) (hw : w1 = w2) :
    ∃ t1 n1,
      n.tickObject payload w1 = some (t1, n1) ∧
      n1 = n ∧
      n1.tickObject payload w2 = some (t1, n1) ∧
      (∀ (q : P) (w : W), n1.tickObject q w = n.tickObject q w) ∧
      n.tick payload w1 = some t1 ∧
      (∀ tree : BehaviorTree W P, tree.rootNode = UniquePtr.owns n →
        tree.tickRootObject payload w1 = some ⟨tree, t1.world, t1.visited⟩) ∧
      (∀ (self : Addr) (parent : Option Addr) (first : BehaviorNode W P) (rest : NodeVec W P)
          (k : Nat) (r : ChildRun W) (rs : List BehaviorResult),
        n = BehaviorNode.sequence self parent (NodeVec.cons first rest) →
        tickEach ((first :: rest.toList).take k) payload w1 = some r →
        r.results = rs ++ [BehaviorResult.RUNNING] →
        (∀ x ∈ rs, x ≠ BehaviorResult.FAILURE) →
        List.IsPrefix (self :: r.visited) t1.visited ∧
          ∀ w : W, ∃ t2 n2 tf, n1.tickObject payload w = some (t2, n2) ∧
            first.tick payload w = some tf ∧
            List.IsPrefix (self :: tf.visited) t2.visited) := by
  obtain ⟨t, ht, -⟩ := tick_sublist n payload w1 hbuilt
  have hobj : ∀ (q : P) (w : W), n.tickObject q w = (n.tick q w).map (fun t => (t, n)) :=
    tickObject_eq n
  refine ⟨t, n, by rw [hobj, ht]; rfl, rfl, by rw [hobj, ← hw, ht]; rfl, fun _ _ => rfl, ht,
    ?_, ?_⟩
  · intro tree hroot
    rw [tickRootObject_eq, tickRoot_owns tree n payload w1 hroot, ht]
    rfl
  · intro self parent first rest k r rs hn hrun hres hok
    subst hn
    constructor
    · have hnf : ∀ x ∈ r.results, x ≠ BehaviorResult.FAILURE := by
        intro x hx
        rw [hres] at hx
        rcases List.mem_append.mp hx with h | h
        · exact hok x h
        · simp only [List.mem_singleton] at h
          simp [h]
      have hcs : NodeVec.cons first rest =
          NodeVec.ofList ((first :: rest.toList).take k ++ (first :: rest.toList).drop k) := by
        rw [List.take_append_drop]
        simp [NodeVec.ofList, ofList_toList]
      rw [tick_sequence, hcs, tickSequence_append,
        tickSequence_of_no_failure _ payload w1 r hrun hnf] at ht
      simp only [if_neg (show ¬ (BehaviorResult.SUCCESS = BehaviorResult.FAILURE) by decide)] at ht
      cases hd : (NodeVec.ofList ((first :: rest.toList).drop k)).tickSequence payload r.world with
      | none => simp [hd] at ht
      | some td =>
        simp only [hd, Option.map_some', Option.some.injEq] at ht
        subst ht
        exact ⟨td.visited, by simp [Ticked.enter, Ticked.after]⟩
    · intro w
      have hb : first.isSequencePeelTree = true ∧ rest.isSequencePeelTree = true := by
        simpa [BehaviorNode.isSequencePeelTree, NodeVec.isSequencePeelTree] using hbuilt
      obtain ⟨tf, htf, -⟩ := tick_sublist first payload w hb.1
      obtain ⟨tr, htr, -⟩ := tickSequence_sublist rest payload tf.world hb.2
      by_cases hf : tf.result = .FAILURE
      · refine ⟨⟨.FAILURE, tf.world, self :: tf.visited⟩,
          BehaviorNode.sequence self parent (NodeVec.cons first rest), tf, ?_, htf,
          List.prefix_refl _⟩
        rw [hobj]
        simp [tick_sequence, tickSequence_cons, htf, hf, Ticked.enter]
      · refine ⟨⟨tr.result, tr.world, self :: (tf.visited ++ tr.visited)⟩,
          BehaviorNode.sequence self parent (NodeVec.cons first rest), tf, ?_, htf, ?_⟩
        · rw [hobj]
          simp [tick_sequence, tickSequence_cons, htf, hf, htr, Ticked.enter, Ticked.after]
        · exact ⟨tr.visited, by simp⟩

/-- C14 at a concrete tree: a sequence (address 0) of a SUCCESS leaf (1), a RUNNING
leaf (2) and a SUCCESS leaf (3).  The tick in state 0 goes through the RUNNING
leaf, ticks 0, 1, 2, 3 and leaves state 111 and the tree as it was; the same
tick again gives the same; a tick in state 111 starts at leaf 1, not at the
RUNNING leaf 2. -/
theorem tick_deterministic_witness :
    ∃ t1 n1,
      (BehaviorNode.sequence 0 none (NodeVec.cons
        (BehaviorNode.leaf 1 (some 0) (fun (_ : Unit) (w : Nat) => (.SUCCESS, w + 1)))
        (NodeVec.cons
          (BehaviorNode.leaf 2 (some 0) (fun (_ : Unit) (w : Nat) => (.RUNNING, w + 10)))
          (NodeVec.cons
            (BehaviorNode.leaf 3 (some 0) (fun (_ : Unit) (w : Nat) => (.SUCCESS, w + 100)))
            NodeVec.nil)))).tickObject () 0 = some (t1, n1) ∧
      n1.tickObject () 0 = some (t1, n1) ∧
      t1 = ⟨.SUCCESS, 111, [0, 1, 2, 3]⟩ ∧
      List.IsPrefix [0, 1, 2] t1.visited ∧
      ∃ t2 n2 tf, n1.tickObject () 111 = some (t2, n2) ∧
        (BehaviorNode.leaf 1 (some 0) (fun (_ : Unit) (w : Nat) => (.SUCCESS, w + 1))).tick
          () 111 = some tf ∧
        List.IsPrefix (0 :: tf.visited) t2.visited :=
  match tick_deterministic
    (BehaviorNode.sequence 0 none (NodeVec.cons
      (BehaviorNode.leaf 1 (some 0) (fun (_ : Unit) (w : Nat) => (.SUCCESS, w + 1)))
      (NodeVec.cons
        (BehaviorNode.leaf 2 (some 0) (fun (_ : Unit) (w : Nat) => (.RUNNING, w + 10)))
        (NodeVec.cons
          (BehaviorNode.leaf 3 (some 0) (fun (_ : Unit) (w : Nat) => (.SUCCESS, w + 100)))
          NodeVec.nil))))
    () 0 0 (by decide) rfl with
  | ⟨t1, n1, h1, _, h2, _, htick, _, hrun⟩ =>
    ⟨t1, n1, h1, h2, Option.some.inj (htick.symm.trans (by decide)),
      (hrun 0 none _ _ 2 ⟨[.SUCCESS, .RUNNING], 11, [1, 2]⟩ [.SUCCESS] rfl
        (by decide) (by decide) (by decide)).1,
      (hrun 0 none _ _ 2 ⟨[.SUCCESS, .RUNNING], 11, [1, 2]⟩ [.SUCCESS] rfl
        (by decide) (by decide) (by decide)).2 111⟩

/-- C19. Bounded, terminating tick: on a tree built from sequences and peel nodes
(children attached) over leaves, the tick of the root returns; the nodes it
ticked are, in order, a sub-list of the nodes of the tree, so it ticks no more
nodes than the tree has and no address more often than the tree has it; when the
nodes have distinct addresses every node is ticked at most once and the number
of leaf ticks is at most the number of leaves; `tickRoot` on a tree with this
root returns too, having ticked the same nodes. -/
theorem tick_bounded {W P : Type} (n : BehaviorNode W P) (payload : P) (w : W)
    (hbuilt : n.isSequencePeelTree = true) :
    ∃ t, n.tick payload w = some t ∧
      t.visited.Sublist n.addrs ∧
      t.visited.length ≤ n.addrs.length ∧
      (∀ a, t.visited.count a ≤ n.addrs.count a) ∧
      (n.addrs.Nodup →
        (∀ a, t.visited.count a ≤ 1) ∧ n.leafTicks t.visited ≤ n.leafAddrs.length) ∧
      (∀ tree : BehaviorTree W P, tree.rootNode = UniquePtr.owns n →
        ∃ r, tree.tickRoot payload w = some r ∧ r.visited = t.visited) := by
  obtain ⟨t, ht, hs⟩ := tick_sublist n payload w hbuilt
  refine ⟨t, ht, hs, hs.length_le, fun a => hs.count_le a, ?_, ?_⟩
  swap
  · intro tree hroot
    exact ⟨⟨tree, t.world, t.visited⟩, by rw [tickRoot_owns tree n payload w hroot, ht]; rfl, rfl⟩
  intro hnodup
  have hv : t.visited.Nodup := hnodup.sublist hs
  refine ⟨fun a => List.nodup_iff_count_le_one.mp hv a, ?_⟩
  unfold BehaviorNode.leafTicks
  apply List.Subperm.length_le
  apply List.subperm_of_subset (hv.filter _)
  intro x hx
  simpa using (List.mem_filter.mp hx).2

/-- C19 at a concrete tree with distinct addresses: a sequence (address 0) of a peel
node (1) over a failing leaf (2) and a further leaf (3); the tick visits a
sub-list of 0, 1, 2, 3 and ticks at most two leaves. -/
theorem tick_bounded_witness :
    ∃ t, (BehaviorNode.sequence 0 none (NodeVec.cons
        (BehaviorNode.peel 1 (some 0) (fun (p : Nat × Nat) (_ : Nat) => p.1)
          (UniquePtr.owns (BehaviorNode.leaf 2 (some 1)
            (fun (q : Nat) (w : Nat) => (.FAILURE, w + q)))))
        (NodeVec.cons
          (BehaviorNode.leaf 3 (some 0) (fun (_ : Nat × Nat) (w : Nat) => (.SUCCESS, w + 10)))
          NodeVec.nil))).tick (5, 6) 0 = some t ∧
      t.visited.Sublist [0, 1, 2, 3] ∧ t.visited.length ≤ 4 ∧
      (t.visited.filter fun a => decide (a ∈ [2, 3])).length ≤ 2 :=
  match tick_bounded
    (BehaviorNode.sequence 0 none (NodeVec.cons
        (BehaviorNode.peel 1 (some 0) (fun (p : Nat × Nat) (_ : Nat) => p.1)
          (UniquePtr.owns (BehaviorNode.leaf 2 (some 1)
            (fun (q : Nat) (w : Nat) => (.FAILURE, w + q)))))
        (NodeVec.cons
          (BehaviorNode.leaf 3 (some 0) (fun (_ : Nat × Nat) (w : Nat) => (.SUCCESS, w + 10)))
          NodeVec.nil)))
    (5, 6) 0 (by decide) with
  | ⟨t, ht, hs, hl, _, hn, _⟩ => ⟨t, ht, hs, hl, (hn (by decide)).2⟩

/-- A nested `SequenceNode` at the head of a children list acts as its own children
spliced in, but for its own address at the front of the nodes ticked. -/
theorem tickSequence_nested_head {W P : Type} (inner : Addr) (innerParent : Option Addr)
    (ys zs : List (BehaviorNode W P)) (payload : P) (w : W) :
    (NodeVec.ofList (BehaviorNode.sequence inner innerParent (NodeVec.ofList ys) :: zs)).tickSequence
        payload w =
      ((NodeVec.ofList (ys ++ zs)).tickSequence payload w).map (Ticked.enter inner) := by
  rw [tickSequence_append]
  simp only [NodeVec.ofList, tickSequence_cons, tick_sequence]
  cases hy : (NodeVec.ofList ys).tickSequence payload w with
  | none => rfl
  | some ty =>
    by_cases hf : ty.result = .FAILURE
    · simp [hf, Ticked.enter]
    · simp only [Option.map_some', Ticked.enter, hf, if_false]
      cases (NodeVec.ofList zs).tickSequence payload ty.world <;>
        simp [Ticked.after, Ticked.enter]

/-- C18. Sequence nesting is associative: a `SequenceNode` with children
`xs ++ [SequenceNode(ys)] ++ zs` and the flat one with children `xs ++ ys ++ zs`
either both have no defined outcome or both return, with the same result and
the same final state; the nodes ticked are the same in the same order, but for
the nested `SequenceNode` itself, which the nested tree ticks right before the
first node of `ys` if `xs` did not fail. -/
theorem sequence_nesting {W P : Type} (self inner : Addr) (parent innerParent : Option Addr)
    (xs ys zs : List (BehaviorNode W P)) (payload : P) (w : W) :
    ((BehaviorNode.sequence self parent (NodeVec.ofList
        (xs ++ [BehaviorNode.sequence inner innerParent (NodeVec.ofList ys)] ++ zs))).tick
        payload w).map Ticked.outcome =
      ((BehaviorNode.sequence self parent (NodeVec.ofList (xs ++ ys ++ zs))).tick
        payload w).map Ticked.outcome ∧
    (∀ tn tf,
      (BehaviorNode.sequence self parent (NodeVec.ofList
        (xs ++ [BehaviorNode.sequence inner innerParent (NodeVec.ofList ys)] ++ zs))).tick
        payload w = some tn →
      (BehaviorNode.sequence self parent (NodeVec.ofList (xs ++ ys ++ zs))).tick
        payload w = some tf →
      tn.visited = tf.visited ∨
        ∃ before rest, tn.visited = before ++ inner :: rest ∧ tf.visited = before ++ rest) := by
  have hN : xs ++ [BehaviorNode.sequence inner innerParent (NodeVec.ofList ys)] ++ zs =
      xs ++ (BehaviorNode.sequence inner innerParent (NodeVec.ofList ys) :: zs) := by simp
  have hF : xs ++ ys ++ zs = xs ++ (ys ++ zs) := by simp
  rw [hN, hF, tick_sequence, tick_sequence, tickSequence_append xs _ payload w,
    tickSequence_append xs (ys ++ zs) payload w]
  cases hx : (NodeVec.ofList xs).tickSequence payload w with
  | none => simp
  | some tx =>
    by_cases hf : tx.result = .FAILURE
    · simp only [hf, if_true, Option.map_some', true_and]
      intro tn tf hn htf
      simp only [Option.some.injEq] at hn htf
      exact Or.inl (hn ▸ htf ▸ rfl)
    · simp only [hf, if_false, tickSequence_nested_head]
      cases hyz : (NodeVec.ofList (ys ++ zs)).tickSequence payload tx.world with
      | none => simp
      | some t =>
        simp only [Option.map_some', Option.some.injEq, true_and]
        refine ⟨rfl, ?_⟩
        intro tn tf hn htf
        subst hn
        subst htf
        exact Or.inr ⟨self :: tx.visited, t.visited, by simp [Ticked.enter, Ticked.after]⟩

/-- C18 at concrete trees: children RUNNING (address 1), then a nested sequence
(address 9) of a SUCCESS and a FAILURE leaf, then a further leaf; the nested
tree ticks 0, 1, 9, 2, 3 and the flat one 0, 1, 2, 3, both returning FAILURE in
state 111. -/
theorem sequence_nesting_witness :
    (BehaviorNode.sequence 0 none (NodeVec.ofList
      ([BehaviorNode.leaf 1 (some 0) (fun (_ : Unit) (w : Nat) => (.RUNNING, w + 1))] ++
        [BehaviorNode.sequence 9 (some 0) (NodeVec.ofList
          [BehaviorNode.leaf 2 (some 9) (fun (_ : Unit) (w : Nat) => (.SUCCESS, w + 10)),
           BehaviorNode.leaf 3 (some 9) (fun (_ : Unit) (w : Nat) => (.FAILURE, w + 100))])] ++
        [BehaviorNode.leaf 4 (some 0) (fun (_ : Unit) (w : Nat) => (.SUCCESS, w + 1000))]))).tick
      () 0 = some ⟨.FAILURE, 111, [0, 1, 9, 2, 3]⟩ ∧
    (BehaviorNode.sequence 0 none (NodeVec.ofList
      ([BehaviorNode.leaf 1 (some 0) (fun (_ : Unit) (w : Nat) => (.RUNNING, w + 1))] ++
        [BehaviorNode.leaf 2 (some 9) (fun (_ : Unit) (w : Nat) => (.SUCCESS, w + 10)),
         BehaviorNode.leaf 3 (some 9) (fun (_ : Unit) (w : Nat) => (.FAILURE, w + 100))] ++
        [BehaviorNode.leaf 4 (some 0) (fun (_ : Unit) (w : Nat) => (.SUCCESS, w + 1000))]))).tick
      () 0 = some ⟨.FAILURE, 111, [0, 1, 2, 3]⟩ ∧
    ([0, 1, 9, 2, 3] = [0, 1, 2, 3] ∨
      ∃ before rest, [0, 1, 9, 2, 3] = before ++ 9 :: rest ∧ [0, 1, 2, 3] = before ++ rest) :=
  ⟨by decide, by decide,
   (sequence_nesting 0 9 none (some 0)
    [BehaviorNode.leaf 1 (some 0) (fun (_ : Unit) (w : Nat) => (.RUNNING, w + 1))]
    [BehaviorNode.leaf 2 (some 9) (fun (_ : Unit) (w : Nat) => (.SUCCESS, w + 10)),
     BehaviorNode.leaf 3 (some 9) (fun (_ : Unit) (w : Nat) => (.FAILURE, w + 100))]
    [BehaviorNode.leaf 4 (some 0) (fun (_ : Unit) (w : Nat) => (.SUCCESS, w + 1000))]
    () 0).2 ⟨.FAILURE, 111, [0, 1, 9, 2, 3]⟩ ⟨.FAILURE, 111, [0, 1, 2, 3]⟩
    (by decide) (by decide)⟩

end TBT
